import Mathlib

/-!
Verification of the space-fantasy-football core: the round-robin tournament
scheduler, the event queue, the simulation clock (`process`) and the season
lifecycle handlers of `game-simulation.ts` / `game-state.ts`.

Dates are embedded as integers counting hours, matching the JS `Date`
operations actually used by the code (`getTime` comparison, `setHours`,
`setDate`, construction from year/month/day, `getFullYear`, `getMonth`,
`getDay`), with the Gregorian civil-calendar conversions spelled out.
-/

namespace SFF

/-! ## Round-robin scheduler

The file `tournament-scheduler.ts` itself is not part of the sources we hold
(only its test file is), so the four scheduler functions and the `Schedule`
constructor are modelled from the specification. -/

/-- Modelled from the spec: `rotate(teams)` of `tournament-scheduler.ts`
(source file missing, only its tests are present).  The first element is
unchanged, the last element moves to the second position, every other
element moves one position to the right. -/
def rotate {α : Type} : List α → List α
  | [] => []
  | x :: xs => x :: (xs.getLast?.toList ++ xs.dropLast)

/-- Modelled from the spec: `createRound(teams)` of `tournament-scheduler.ts`
(source file missing).  Pairs the element at position `i` with the element at
position `n - 1 - i` for `i = 0 … n/2 - 1`. -/
def createRound {α : Type} (l : List α) : List (α × α) :=
  (l.take (l.length / 2)).zip (l.drop (l.length / 2)).reverse

/-- Helper for `createTournamentRounds`: produce `k` rounds, calling
`createRound` on the current ordering and then `rotate`-ing it. -/
def roundsAux {α : Type} : List α → Nat → List (List (α × α))
  | _, 0 => []
  | l, k + 1 => createRound l :: roundsAux (rotate l) k

/-- Modelled from the spec: `createTournamentRounds(teams)` of
`tournament-scheduler.ts` (source file missing).  Produces `n - 1` rounds by
repeatedly calling `createRound` on the current ordering and then
`rotate`-ing the ordering for the next round. -/
def createTournamentRounds {α : Type} (l : List α) : List (List (α × α)) :=
  roundsAux l (l.length - 1)

/-- Modelled from the spec: `createDoubleRoundsTournament(teams)` of
`tournament-scheduler.ts` (source file missing).  The rounds of a single
cycle followed by the same rounds with each pairing's members swapped. -/
def createDoubleRoundsTournament {α : Type} (l : List α) : List (List (α × α)) :=
  createTournamentRounds l ++
    (createTournamentRounds l).map (List.map (fun p => (p.2, p.1)))

/-- `r`-fold application of `rotate`. -/
def rotateN {α : Type} : Nat → List α → List α
  | 0, l => l
  | r + 1, l => rotateN r (rotate l)

theorem rotate_length {α : Type} (l : List α) : (rotate l).length = l.length := by
  cases l with
  | nil => rfl
  | cons x xs =>
    cases xs with
    | nil => rfl
    | cons y ys =>
      simp [rotate, List.getLast?_eq_getLast _ (List.cons_ne_nil y ys)]

theorem drop_length_sub_one {α : Type} (xs : List α) (h : xs ≠ []) :
    xs.drop (xs.length - 1) = [xs.getLast h] := by
  induction xs with
  | nil => exact absurd rfl h
  | cons y ys ih =>
    cases ys with
    | nil => rfl
    | cons z zs =>
      have hstep : (y :: z :: zs).length - 1 = (z :: zs).length - 1 + 1 := by
        simp
      rw [hstep, List.drop_succ_cons, ih (List.cons_ne_nil z zs)]
      simp [List.getLast]

theorem rotate_cons_of_ne_nil {α : Type} (x : α) (xs : List α) (h : xs ≠ []) :
    rotate (x :: xs) = x :: xs.rotate (xs.length - 1) := by
  have h1 : xs.length - 1 ≤ xs.length := Nat.sub_le _ _
  rw [rotate, List.rotate_eq_drop_append_take h1]
  congr 1
  rw [List.getLast?_eq_getLast _ h]
  have htake : xs.take (xs.length - 1) = xs.dropLast := by
    rw [List.dropLast_eq_take]
  rw [drop_length_sub_one xs h, htake]
  rfl

theorem rotate_perm {α : Type} (l : List α) : (rotate l).Perm l := by
  cases l with
  | nil => exact List.Perm.refl _
  | cons x xs =>
    cases hxs : xs with
    | nil => exact List.Perm.refl _
    | cons y ys =>
      rw [← hxs]
      have h : xs ≠ [] := by simp [hxs]
      rw [rotate, List.getLast?_eq_getLast _ h]
      refine List.Perm.cons x ?_
      have h2 : xs.dropLast ++ [xs.getLast h] = xs := List.dropLast_append_getLast h
      conv_rhs => rw [← h2]
      simp only [Option.toList]
      exact (List.perm_append_singleton _ _).symm

theorem rotateN_length {α : Type} (r : Nat) (l : List α) :
    (rotateN r l).length = l.length := by
  induction r generalizing l with
  | zero => rfl
  | succ r ih => rw [rotateN, ih, rotate_length]

theorem rotateN_perm {α : Type} (r : Nat) (l : List α) : (rotateN r l).Perm l := by
  induction r generalizing l with
  | zero => exact List.Perm.refl _
  | succ r ih => exact (ih (rotate l)).trans (rotate_perm l)

theorem roundsAux_length {α : Type} (l : List α) (k : Nat) :
    (roundsAux l k).length = k := by
  induction k generalizing l with
  | zero => rfl
  | succ k ih => simp [roundsAux, ih]

theorem roundsAux_getElem {α : Type} (l : List α) (k r : Nat) (hr : r < k)
    (h : r < (roundsAux l k).length) :
    (roundsAux l k)[r] = createRound (rotateN r l) := by
  induction k generalizing l r with
  | zero => exact absurd hr (Nat.not_lt_zero r)
  | succ k ih =>
    cases r with
    | zero => rfl
    | succ r =>
      have hr' : r < k := Nat.lt_of_succ_lt_succ hr
      simp only [roundsAux, List.getElem_cons_succ]
      rw [ih (rotate l) r hr']
      rfl

theorem rotate_map {α β : Type} (f : α → β) (l : List α) :
    rotate (l.map f) = (rotate l).map f := by
  cases l with
  | nil => rfl
  | cons x xs =>
    simp [rotate, List.getLast?_map, List.map_dropLast]
    cases xs.getLast? <;> simp

theorem createRound_map {α β : Type} (f : α → β) (l : List α) :
    createRound (l.map f) = (createRound l).map (Prod.map f f) := by
  unfold createRound
  rw [List.length_map, ← List.map_take, ← List.map_drop, ← List.map_reverse,
    List.zip_map]

theorem roundsAux_map {α β : Type} (f : α → β) (l : List α) (k : Nat) :
    roundsAux (l.map f) k = (roundsAux l k).map (List.map (Prod.map f f)) := by
  induction k generalizing l with
  | zero => rfl
  | succ k ih =>
    simp only [roundsAux, List.map_cons, createRound_map]
    rw [rotate_map, ih]

theorem createTournamentRounds_map {α β : Type} (f : α → β) (l : List α) :
    createTournamentRounds (l.map f)
      = (createTournamentRounds l).map (List.map (Prod.map f f)) := by
  unfold createTournamentRounds
  rw [List.length_map, roundsAux_map]

theorem map_getD_range {α : Type} (l : List α) (d : α) :
    (List.range l.length).map (fun i => l.getD i d) = l := by
  apply List.ext_getElem
  · simp
  · intro i h1 h2
    simp only [List.getElem_map, List.getElem_range]
    exact l.getD_eq_getElem d h2

theorem rotateN_cons {α : Type} (r : Nat) (x : α) (xs : List α) (h : xs ≠ []) :
    rotateN r (x :: xs) = x :: xs.rotate ((xs.length - 1) * r) := by
  induction r generalizing xs with
  | zero => simp [rotateN]
  | succ r ih =>
    show rotateN r (rotate (x :: xs)) = _
    rw [rotate_cons_of_ne_nil x xs h]
    have hne : xs.rotate (xs.length - 1) ≠ [] := by
      intro hc
      apply h
      have := List.length_rotate xs (xs.length - 1)
      rw [hc] at this
      exact List.length_eq_zero.mp this.symm
    rw [ih _ hne, List.length_rotate, List.rotate_rotate]
    congr 2
    ring

/-- Position `j` (counted inside the rotating block of `m` teams) of the
ordering used in round `r`, for the circle method on `m + 1` teams. -/
def teamAt (m r j : Nat) : Nat := (j + (m - 1) * r) % m + 1

theorem rotateN_range (m r : Nat) (hm : 0 < m) :
    rotateN r (List.range (m + 1))
      = 0 :: ((List.range m).map Nat.succ).rotate ((m - 1) * r) := by
  rw [List.range_succ_eq_map]
  have hne : (List.range m).map Nat.succ ≠ [] := by
    intro hc
    have := congrArg List.length hc
    simp at this
    omega
  rw [rotateN_cons r 0 _ hne]
  simp

theorem rotateN_range_getElem_succ (m r j : Nat) (hm : 0 < m) (hj : j < m)
    (h : j + 1 < (rotateN r (List.range (m + 1))).length) :
    (rotateN r (List.range (m + 1)))[j + 1] = teamAt m r j := by
  simp only [rotateN_range m r hm, List.getElem_cons_succ]
  have hlen : (((List.range m).map Nat.succ)).length = m := by simp
  rw [List.getElem_rotate]
  simp only [hlen, List.getElem_map, List.getElem_range]
  simp [teamAt, Nat.succ_eq_add_one]

theorem rotateN_range_getElem_zero (m r : Nat) (hm : 0 < m)
    (h : 0 < (rotateN r (List.range (m + 1))).length) :
    (rotateN r (List.range (m + 1)))[0] = 0 := by
  simp only [rotateN_range m r hm, List.getElem_cons_zero]

theorem createRound_length {α : Type} (v : List α) (hv : Even v.length) :
    (createRound v).length = v.length / 2 := by
  obtain ⟨k, hk⟩ := hv
  unfold createRound
  simp only [List.length_zip, List.length_take, List.length_reverse,
    List.length_drop]
  omega

theorem createRound_getElem {α : Type} (v : List α) (hv : Even v.length) (i : Nat)
    (h : i < (createRound v).length) (h1 : i < v.length)
    (h2 : v.length - 1 - i < v.length) :
    (createRound v)[i] = (v[i], v[v.length - 1 - i]) := by
  have hlen := createRound_length v hv
  have hi : i < v.length / 2 := hlen ▸ h
  obtain ⟨k, hk⟩ := hv
  unfold createRound at h ⊢
  rw [List.getElem_zip, List.getElem_take, List.getElem_reverse,
    List.getElem_drop]
  have hidx : v.length / 2 + ((v.drop (v.length / 2)).length - 1 - i)
      = v.length - 1 - i := by
    simp only [List.length_drop]
    omega
  rw [Prod.mk.injEq]
  exact ⟨rfl, getElem_congr hidx⟩

theorem mem_createRound {α : Type} (v : List α) (hv : Even v.length) (p : α × α) :
    p ∈ createRound v ↔
      ∃ i, i < v.length / 2 ∧ v[i]? = some p.1 ∧ v[v.length - 1 - i]? = some p.2 := by
  have hlen := createRound_length v hv
  obtain ⟨k, hk⟩ := hv
  constructor
  · intro hp
    obtain ⟨i, hi, hie⟩ := List.mem_iff_getElem.mp hp
    have hi2 : i < v.length / 2 := hlen ▸ hi
    have h1 : i < v.length := by omega
    have h2 : v.length - 1 - i < v.length := by omega
    rw [createRound_getElem v ⟨k, hk⟩ i hi h1 h2] at hie
    refine ⟨i, hi2, ?_, ?_⟩
    · rw [List.getElem?_eq_getElem h1, ← hie]
    · rw [List.getElem?_eq_getElem h2, ← hie]
  · rintro ⟨i, hi, he1, he2⟩
    have h1 : i < v.length := by omega
    have h2 : v.length - 1 - i < v.length := by omega
    apply List.mem_iff_getElem.mpr
    refine ⟨i, hlen ▸ hi, ?_⟩
    rw [createRound_getElem v ⟨k, hk⟩ i (hlen ▸ hi) h1 h2]
    rw [List.getElem?_eq_getElem h1] at he1
    rw [List.getElem?_eq_getElem h2] at he2
    have e1 := Option.some.inj he1
    have e2 := Option.some.inj he2
    cases p
    simp only [Prod.mk.injEq]
    exact ⟨e1, e2⟩

theorem teamAt_pos (m r j : Nat) : 1 ≤ teamAt m r j := by
  unfold teamAt
  omega

theorem round_pair_cases (m r : Nat) (hm : 0 < m) (hev : Even (m + 1))
    (p : Nat × Nat) (hp : p ∈ createRound (rotateN r (List.range (m + 1)))) :
    p = (0, teamAt m r (m - 1)) ∨
      ∃ a, a + 2 ≤ m ∧ p = (teamAt m r a, teamAt m r (m - 2 - a)) := by
  have hvlen : (rotateN r (List.range (m + 1))).length = m + 1 := by
    rw [rotateN_length, List.length_range]
  have hev' : Even (rotateN r (List.range (m + 1))).length := by
    rw [hvlen]
    exact hev
  obtain ⟨i, hi, he1, he2⟩ := (mem_createRound _ hev' p).mp hp
  rw [hvlen] at hi he2
  obtain ⟨k, hk⟩ := hev
  cases i with
  | zero =>
    left
    have hz : 0 < (rotateN r (List.range (m + 1))).length := by omega
    rw [List.getElem?_eq_getElem hz, rotateN_range_getElem_zero m r hm hz] at he1
    have hm1 : m + 1 - 1 - 0 = (m - 1) + 1 := by omega
    rw [hm1] at he2
    have hb : (m - 1) + 1 < (rotateN r (List.range (m + 1))).length := by omega
    rw [List.getElem?_eq_getElem hb,
      rotateN_range_getElem_succ m r (m - 1) hm (by omega) hb] at he2
    have e1 := Option.some.inj he1
    have e2 := Option.some.inj he2
    cases p
    simp only [Prod.mk.injEq]
    exact ⟨e1.symm, e2.symm⟩
  | succ a =>
    right
    have ham : a + 2 ≤ m := by omega
    refine ⟨a, ham, ?_⟩
    have hb1 : a + 1 < (rotateN r (List.range (m + 1))).length := by omega
    rw [List.getElem?_eq_getElem hb1,
      rotateN_range_getElem_succ m r a hm (by omega) hb1] at he1
    have hm1 : m + 1 - 1 - (a + 1) = (m - 2 - a) + 1 := by omega
    rw [hm1] at he2
    have hb2 : (m - 2 - a) + 1 < (rotateN r (List.range (m + 1))).length := by omega
    rw [List.getElem?_eq_getElem hb2,
      rotateN_range_getElem_succ m r (m - 2 - a) hm (by omega) hb2] at he2
    have e1 := Option.some.inj he1
    have e2 := Option.some.inj he2
    cases p
    simp only [Prod.mk.injEq]
    exact ⟨e1.symm, e2.symm⟩

theorem coprime_pred (m : Nat) (hm : 0 < m) : Nat.Coprime m (m - 1) := by
  have h : m - 1 + 1 = m := by omega
  rw [← h]
  simp [Nat.add_comm, Nat.coprime_add_self_left]

theorem round_of_zero_partner (m : Nat) (hodd : Odd m) (r r' : Nat)
    (hr : r < m) (hr' : r' < m)
    (h : teamAt m r (m - 1) = teamAt m r' (m - 1)) : r = r' := by
  have hm : 0 < m := hodd.pos
  unfold teamAt at h
  have e1 : (m - 1) + (m - 1) * r = (m - 1) * (1 + r) := by ring
  have e2 : (m - 1) + (m - 1) * r' = (m - 1) * (1 + r') := by ring
  have hmod : Nat.ModEq m ((m - 1) * (1 + r)) ((m - 1) * (1 + r')) := by
    show ((m - 1) * (1 + r)) % m = ((m - 1) * (1 + r')) % m
    rw [← e1, ← e2]
    omega
  have hcan := Nat.ModEq.cancel_left_of_coprime (coprime_pred m hm) hmod
  have := Nat.ModEq.add_left_cancel' 1 hcan
  show r = r'
  have h1 : r % m = r' % m := this
  rw [Nat.mod_eq_of_lt hr, Nat.mod_eq_of_lt hr'] at h1
  exact h1

theorem round_of_pair_sum (m : Nat) (hodd : Odd m) (r r' a b a' b' : Nat)
    (hr : r < m) (hr' : r' < m) (hab : a + b = m - 2) (hab' : a' + b' = m - 2)
    (hm2 : 2 ≤ m)
    (hsum : teamAt m r a + teamAt m r b = teamAt m r' a' + teamAt m r' b') :
    r = r' := by
  unfold teamAt at hsum
  have hs : (a + (m - 1) * r) % m + (b + (m - 1) * r) % m
      = (a' + (m - 1) * r') % m + (b' + (m - 1) * r') % m := by omega
  have h1 : Nat.ModEq m ((a + (m - 1) * r) % m + (b + (m - 1) * r) % m)
      ((m - 2) + 2 * ((m - 1) * r)) := by
    refine (Nat.ModEq.add (Nat.mod_modEq _ m) (Nat.mod_modEq _ m)).trans ?_
    have e : (a + (m - 1) * r) + (b + (m - 1) * r)
        = (a + b) + 2 * ((m - 1) * r) := by ring
    rw [e, hab]
  have h2 : Nat.ModEq m ((a' + (m - 1) * r') % m + (b' + (m - 1) * r') % m)
      ((m - 2) + 2 * ((m - 1) * r')) := by
    refine (Nat.ModEq.add (Nat.mod_modEq _ m) (Nat.mod_modEq _ m)).trans ?_
    have e : (a' + (m - 1) * r') + (b' + (m - 1) * r')
        = (a' + b') + 2 * ((m - 1) * r') := by ring
    rw [e, hab']
  have h2' : Nat.ModEq m ((a + (m - 1) * r) % m + (b + (m - 1) * r) % m)
      ((m - 2) + 2 * ((m - 1) * r')) := by
    rw [hs]
    exact h2
  have hx : Nat.ModEq m ((m - 2) + 2 * ((m - 1) * r))
      ((m - 2) + 2 * ((m - 1) * r')) := h1.symm.trans h2'
  have hy := Nat.ModEq.add_left_cancel' (m - 2) hx
  have e3 : 2 * ((m - 1) * r) = (2 * (m - 1)) * r := by ring
  have e4 : 2 * ((m - 1) * r') = (2 * (m - 1)) * r' := by ring
  rw [e3, e4] at hy
  have hco : Nat.Coprime m (2 * (m - 1)) := by
    have hc2 : Nat.Coprime m 2 := Nat.coprime_two_right.mpr hodd
    exact Nat.Coprime.mul_right hc2 (coprime_pred m (by omega))
  have hcan := Nat.ModEq.cancel_left_of_coprime hco hy
  have h5 : r % m = r' % m := hcan
  rw [Nat.mod_eq_of_lt hr, Nat.mod_eq_of_lt hr'] at h5
  exact h5

theorem rounds_range_cross (m r r' : Nat) (hodd : Odd m) (hr : r < m)
    (hr' : r' < m) (hne : r ≠ r') (p q : Nat × Nat)
    (hp : p ∈ createRound (rotateN r (List.range (m + 1))))
    (hq : q ∈ createRound (rotateN r' (List.range (m + 1))))
    (hsame : (p.1 = q.1 ∧ p.2 = q.2) ∨ (p.1 = q.2 ∧ p.2 = q.1)) : False := by
  have hm : 0 < m := hodd.pos
  have hev : Even (m + 1) := by
    rcases hodd with ⟨t, ht⟩
    exact ⟨t + 1, by omega⟩
  rcases round_pair_cases m r hm hev p hp with h1 | ⟨a, ha, h1⟩ <;>
    rcases round_pair_cases m r' hm hev q hq with h2 | ⟨a', ha', h2⟩
  · -- both pairs involve the fixed team 0
    subst h1
    subst h2
    rcases hsame with ⟨_, hs2⟩ | ⟨hs1, _⟩
    · have hs2' : teamAt m r (m - 1) = teamAt m r' (m - 1) := hs2
      exact hne (round_of_zero_partner m hodd r r' hr hr' hs2')
    · have hs1' : (0 : Nat) = teamAt m r' (m - 1) := hs1
      have := teamAt_pos m r' (m - 1)
      omega
  · -- p involves team 0, q does not: impossible
    subst h1
    subst h2
    rcases hsame with ⟨hs1, _⟩ | ⟨hs1, _⟩
    · have hs1' : (0 : Nat) = teamAt m r' a' := hs1
      have := teamAt_pos m r' a'
      omega
    · have hs1' : (0 : Nat) = teamAt m r' (m - 2 - a') := hs1
      have := teamAt_pos m r' (m - 2 - a')
      omega
  · -- q involves team 0, p does not: impossible
    subst h1
    subst h2
    rcases hsame with ⟨hs1, _⟩ | ⟨_, hs2⟩
    · have hs1' : teamAt m r a = (0 : Nat) := hs1
      have := teamAt_pos m r a
      omega
    · have hs2' : teamAt m r (m - 2 - a) = (0 : Nat) := hs2
      have := teamAt_pos m r (m - 2 - a)
      omega
  · -- neither pair involves team 0: compare residue sums
    subst h1
    subst h2
    have hsum : teamAt m r a + teamAt m r (m - 2 - a)
        = teamAt m r' a' + teamAt m r' (m - 2 - a') := by
      rcases hsame with ⟨hs1, hs2⟩ | ⟨hs1, hs2⟩
      · have hs1' : teamAt m r a = teamAt m r' a' := hs1
        have hs2' : teamAt m r (m - 2 - a) = teamAt m r' (m - 2 - a') := hs2
        omega
      · have hs1' : teamAt m r a = teamAt m r' (m - 2 - a') := hs1
        have hs2' : teamAt m r (m - 2 - a) = teamAt m r' a' := hs2
        omega
    exact hne (round_of_pair_sum m hodd r r' a (m - 2 - a) a' (m - 2 - a')
      hr hr' (by omega) (by omega) (by omega) hsum)

theorem zip_flatPairs_perm {α : Type} :
    ∀ (a b : List α), a.length = b.length →
      ((a.zip b).flatMap (fun p => [p.1, p.2])).Perm (a ++ b) := by
  intro a
  induction a with
  | nil =>
    intro b hb
    have : b = [] := List.length_eq_zero.mp hb.symm
    subst this
    exact List.Perm.refl _
  | cons x as ih =>
    intro b hb
    cases b with
    | nil => simp at hb
    | cons y bs =>
      have hlen : as.length = bs.length := by
        simp at hb
        exact hb
      simp only [List.zip_cons_cons, List.flatMap_cons, List.cons_append]
      refine List.Perm.cons x ?_
      have h1 := ih bs hlen
      have h2 : (as ++ y :: bs).Perm (y :: (as ++ bs)) := List.perm_middle
      exact (List.Perm.cons y h1).trans h2.symm

theorem createRound_flat_perm {α : Type} (v : List α) (hv : Even v.length) :
    ((createRound v).flatMap (fun p => [p.1, p.2])).Perm v := by
  unfold createRound
  have hlen : (v.take (v.length / 2)).length
      = (v.drop (v.length / 2)).reverse.length := by
    obtain ⟨k, hk⟩ := hv
    simp only [List.length_take, List.length_reverse, List.length_drop]
    omega
  refine (zip_flatPairs_perm _ _ hlen).trans ?_
  have hrev : ((v.drop (v.length / 2)).reverse).Perm (v.drop (v.length / 2)) :=
    List.reverse_perm _
  refine (List.Perm.append_left _ hrev).trans ?_
  rw [List.take_append_drop]

theorem round_flat_perm {α : Type} (l : List α) (he : Even l.length) (r : Nat)
    (h : r < (createTournamentRounds l).length) :
    (((createTournamentRounds l)[r]).flatMap (fun p => [p.1, p.2])).Perm l := by
  unfold createTournamentRounds at h ⊢
  have hr : r < l.length - 1 := by
    rw [roundsAux_length] at h
    exact h
  rw [roundsAux_getElem l _ r hr h]
  have hev : Even (rotateN r l).length := by
    rw [rotateN_length]
    exact he
  exact (createRound_flat_perm _ hev).trans (rotateN_perm r l)

theorem mem_flatPairs_left {α : Type} (round : List (α × α)) (q : α × α)
    (hq : q ∈ round) : q.1 ∈ round.flatMap (fun p => [p.1, p.2]) := by
  rw [List.mem_flatMap]
  exact ⟨q, hq, by simp⟩

theorem mem_flatPairs_right {α : Type} (round : List (α × α)) (q : α × α)
    (hq : q ∈ round) : q.2 ∈ round.flatMap (fun p => [p.1, p.2]) := by
  rw [List.mem_flatMap]
  exact ⟨q, hq, by simp⟩

theorem countP_pairs_zero {α : Type} [DecidableEq α] (round : List (α × α))
    (x : α)
    (h : (round.flatMap fun p => [p.1, p.2]).countP (fun y => decide (y = x)) = 0) :
    round.countP (fun p => decide (p.1 = x ∨ p.2 = x)) = 0 := by
  rw [List.countP_eq_zero] at h ⊢
  intro p hp
  simp only [decide_eq_true_eq]
  intro hc
  cases hc with
  | inl h1 =>
    have := h p.1 (mem_flatPairs_left round p hp)
    simp only [decide_eq_true_eq] at this
    exact this h1
  | inr h2 =>
    have := h p.2 (mem_flatPairs_right round p hp)
    simp only [decide_eq_true_eq] at this
    exact this h2

theorem countP_pairs_one {α : Type} [DecidableEq α] :
    ∀ (round : List (α × α)) (x : α),
      ((round.flatMap fun p => [p.1, p.2]).countP (fun y => decide (y = x)) = 1) →
      round.countP (fun p => decide (p.1 = x ∨ p.2 = x)) = 1 := by
  intro round
  induction round with
  | nil =>
    intro x h
    simp at h
  | cons p rest ih =>
    intro x h
    rw [List.flatMap_cons] at h
    simp only [List.cons_append, List.nil_append, List.countP_cons] at h
    rw [List.countP_cons]
    by_cases h1 : p.1 = x <;> by_cases h2 : p.2 = x
    · rw [if_pos (show decide (p.2 = x) = true by simp [h2]),
        if_pos (show decide (p.1 = x) = true by simp [h1])] at h
      omega
    · rw [if_neg (show ¬ decide (p.2 = x) = true by simp [h2]),
        if_pos (show decide (p.1 = x) = true by simp [h1])] at h
      have hz := countP_pairs_zero rest x (by omega)
      rw [if_pos (show decide (p.1 = x ∨ p.2 = x) = true by simp [h1])]
      omega
    · rw [if_pos (show decide (p.2 = x) = true by simp [h2]),
        if_neg (show ¬ decide (p.1 = x) = true by simp [h1])] at h
      have hz := countP_pairs_zero rest x (by omega)
      rw [if_pos (show decide (p.1 = x ∨ p.2 = x) = true by simp [h2])]
      omega
    · rw [if_neg (show ¬ decide (p.2 = x) = true by simp [h2]),
        if_neg (show ¬ decide (p.1 = x) = true by simp [h1])] at h
      have hone := ih x (by omega)
      rw [if_neg (show ¬ decide (p.1 = x ∨ p.2 = x) = true by simp [h1, h2])]
      omega

theorem nodup_countP_eq_one {α : Type} [DecidableEq α] (l : List α) (x : α)
    (hnd : l.Nodup) (hx : x ∈ l) :
    l.countP (fun y => decide (y = x)) = 1 := by
  induction l with
  | nil => simp at hx
  | cons y l ih =>
    rw [List.nodup_cons] at hnd
    rw [List.countP_cons]
    rcases List.mem_cons.mp hx with h | h
    · subst h
      have hz : l.countP (fun y => decide (y = x)) = 0 := by
        rw [List.countP_eq_zero]
        intro a ha
        simp only [decide_eq_true_eq]
        intro hc
        exact hnd.1 (hc ▸ ha)
      simp [hz]
    · have hy : y ≠ x := by
        intro hc
        exact hnd.1 (hc ▸ h)
      rw [ih hnd.2 h]
      simp [hy]

theorem rounds_getElem_map {α β : Type} (f : α → β) (l : List α) (i : Nat)
    (hi : i < (createTournamentRounds (l.map f)).length)
    (hib : i < (createTournamentRounds l).length) :
    (createTournamentRounds (l.map f))[i]
      = List.map (Prod.map f f) ((createTournamentRounds l)[i]) := by
  have h1 : (createTournamentRounds (l.map f))[i]?
      = some ((createTournamentRounds (l.map f))[i]) := List.getElem?_eq_getElem hi
  have h2 : (createTournamentRounds l)[i]?
      = some ((createTournamentRounds l)[i]) := List.getElem?_eq_getElem hib
  have h3 : (createTournamentRounds (l.map f))[i]?
      = ((createTournamentRounds l)[i]?).map (List.map (Prod.map f f)) := by
    rw [createTournamentRounds_map, List.getElem?_map]
  rw [h1, h2] at h3
  simp only [Option.map_some'] at h3
  exact Option.some.inj h3

theorem createTournamentRounds_length {α : Type} (l : List α) :
    (createTournamentRounds l).length = l.length - 1 := by
  unfold createTournamentRounds
  exact roundsAux_length l _

theorem range_rounds_getElem (n i : Nat)
    (hi : i < (createTournamentRounds (List.range n)).length) :
    (createTournamentRounds (List.range n))[i]
      = createRound (rotateN i (List.range n)) := by
  unfold createTournamentRounds at hi ⊢
  have hr : i < (List.range n).length - 1 := by
    rw [roundsAux_length] at hi
    exact hi
  exact roundsAux_getElem _ _ i hr hi

theorem rounds_matching_general {α : Type} [DecidableEq α] (l : List α)
    (hnd : l.Nodup) (he : Even l.length) :
    ∀ round ∈ createTournamentRounds l, ∀ x ∈ l,
      round.countP (fun p => decide (p.1 = x ∨ p.2 = x)) = 1 := by
  intro round hround x hx
  obtain ⟨r, hr, hre⟩ := List.mem_iff_getElem.mp hround
  subst hre
  have hperm := round_flat_perm l he r hr
  have hcount := hperm.countP_eq (fun y => decide (y = x))
  have hone := nodup_countP_eq_one l x hnd hx
  exact countP_pairs_one _ x (by rw [hcount]; exact hone)

theorem rounds_cross_general {α : Type} [DecidableEq α] (l : List α)
    (hnd : l.Nodup) (he : Even l.length) (i j : Nat)
    (hi : i < (createTournamentRounds l).length)
    (hj : j < (createTournamentRounds l).length) (hij : i ≠ j)
    (p : α × α) (hp : p ∈ (createTournamentRounds l)[i])
    (q : α × α) (hq : q ∈ (createTournamentRounds l)[j]) :
    ¬ ((p.1 = q.1 ∧ p.2 = q.2) ∨ (p.1 = q.2 ∧ p.2 = q.1)) := by
  intro hsame
  have hlenl := createTournamentRounds_length l
  set n := l.length with hn
  have hn2 : 2 ≤ n := by
    rw [hlenl] at hi
    omega
  have hn0 : 0 < n := by omega
  obtain ⟨d, hd⟩ := List.exists_mem_of_length_pos (hn ▸ hn0)
  set f : Nat → α := fun i => l.getD i d with hf
  have hmapl : (List.range n).map f = l := map_getD_range l d
  have hlenr : (createTournamentRounds (List.range n)).length = n - 1 := by
    rw [createTournamentRounds_length, List.length_range]
  have hib : i < (createTournamentRounds (List.range n)).length := by
    rw [hlenr]
    rw [hlenl] at hi
    exact hi
  have hjb : j < (createTournamentRounds (List.range n)).length := by
    rw [hlenr]
    rw [hlenl] at hj
    exact hj
  have heqi : (createTournamentRounds l)[i]
      = List.map (Prod.map f f) ((createTournamentRounds (List.range n))[i]) := by
    have := rounds_getElem_map f (List.range n) i
    rw [hmapl] at this
    exact this hi hib
  have heqj : (createTournamentRounds l)[j]
      = List.map (Prod.map f f) ((createTournamentRounds (List.range n))[j]) := by
    have := rounds_getElem_map f (List.range n) j
    rw [hmapl] at this
    exact this hj hjb
  rw [heqi] at hp
  rw [heqj] at hq
  obtain ⟨p0, hp0, hpe⟩ := List.mem_map.mp hp
  obtain ⟨q0, hq0, hqe⟩ := List.mem_map.mp hq
  have hevr : Even (List.range n).length := by
    rw [List.length_range]
    exact he
  have hfp := round_flat_perm (List.range n) hevr i hib
  have hfq := round_flat_perm (List.range n) hevr j hjb
  have hp1 : p0.1 < n := by
    have := hfp.mem_iff.mp (mem_flatPairs_left _ p0 hp0)
    exact List.mem_range.mp this
  have hp2 : p0.2 < n := by
    have := hfp.mem_iff.mp (mem_flatPairs_right _ p0 hp0)
    exact List.mem_range.mp this
  have hq1 : q0.1 < n := by
    have := hfq.mem_iff.mp (mem_flatPairs_left _ q0 hq0)
    exact List.mem_range.mp this
  have hq2 : q0.2 < n := by
    have := hfq.mem_iff.mp (mem_flatPairs_right _ q0 hq0)
    exact List.mem_range.mp this
  have hfinj : ∀ a b, a < n → b < n → f a = f b → a = b := by
    intro a b ha hb hfe
    have ha2 : a < l.length := hn ▸ ha
    have hb2 : b < l.length := hn ▸ hb
    have hga : l.getD a d = l[a] := List.getD_eq_getElem l d ha2
    have hgb : l.getD b d = l[b] := List.getD_eq_getElem l d hb2
    have hab : l[a] = l[b] := by
      rw [← hga, ← hgb]
      exact hfe
    exact (List.Nodup.getElem_inj_iff hnd).mp hab
  have hpe1 : p.1 = f p0.1 := by rw [← hpe]; rfl
  have hpe2 : p.2 = f p0.2 := by rw [← hpe]; rfl
  have hqe1 : q.1 = f q0.1 := by rw [← hqe]; rfl
  have hqe2 : q.2 = f q0.2 := by rw [← hqe]; rfl
  have hsame0 : (p0.1 = q0.1 ∧ p0.2 = q0.2) ∨ (p0.1 = q0.2 ∧ p0.2 = q0.1) := by
    rcases hsame with ⟨hA, hB⟩ | ⟨hA, hB⟩
    · left
      rw [hpe1, hqe1] at hA
      rw [hpe2, hqe2] at hB
      exact ⟨hfinj _ _ hp1 hq1 hA, hfinj _ _ hp2 hq2 hB⟩
    · right
      rw [hpe1, hqe2] at hA
      rw [hpe2, hqe1] at hB
      exact ⟨hfinj _ _ hp1 hq2 hA, hfinj _ _ hp2 hq1 hB⟩
  obtain ⟨k, hk⟩ := he
  have hm : n = (n - 1) + 1 := by omega
  have hodd : Odd (n - 1) := ⟨k - 1, by omega⟩
  have hp0' : p0 ∈ createRound (rotateN i (List.range ((n - 1) + 1))) := by
    rw [← hm]
    rw [range_rounds_getElem n i hib] at hp0
    exact hp0
  have hq0' : q0 ∈ createRound (rotateN j (List.range ((n - 1) + 1))) := by
    rw [← hm]
    rw [range_rounds_getElem n j hjb] at hq0
    exact hq0
  exact rounds_range_cross (n - 1) i j hodd
    (by rw [hlenr] at hib; exact hib) (by rw [hlenr] at hjb; exact hjb)
    hij p0 q0 hp0' hq0' hsame0

/-- C1: for every even-length list of `n` distinct team identifiers,
`createTournamentRounds` returns exactly `n - 1` rounds, every round is a
perfect matching (each of the `n` teams appears in exactly one pairing of
that round), and no unordered pair of teams appears in more than one round
across the whole result. -/
theorem claim1_createTournamentRounds {α : Type} [DecidableEq α] (l : List α)
    (hnd : l.Nodup) (he : Even l.length) :
    (createTournamentRounds l).length = l.length - 1
    ∧ (∀ round ∈ createTournamentRounds l, ∀ x ∈ l,
        round.countP (fun p => decide (p.1 = x ∨ p.2 = x)) = 1)
    ∧ ∀ i j (_ : i < (createTournamentRounds l).length)
        (_ : j < (createTournamentRounds l).length), i ≠ j →
        ∀ p ∈ (createTournamentRounds l)[i], ∀ q ∈ (createTournamentRounds l)[j],
          ¬ ((p.1 = q.1 ∧ p.2 = q.2) ∨ (p.1 = q.2 ∧ p.2 = q.1)) :=
  ⟨createTournamentRounds_length l, rounds_matching_general l hnd he,
    fun i j hi hj hij p hp q hq =>
      rounds_cross_general l hnd he i j hi hj hij p hp q hq⟩

/-- Witness for C1 at the concrete team list `[0, 1, 2, 3]`. -/
theorem claim1_createTournamentRounds_witness :
    (createTournamentRounds ([0, 1, 2, 3] : List Nat)).length
        = ([0, 1, 2, 3] : List Nat).length - 1
    ∧ (∀ round ∈ createTournamentRounds ([0, 1, 2, 3] : List Nat),
        ∀ x ∈ ([0, 1, 2, 3] : List Nat),
        round.countP (fun p => decide (p.1 = x ∨ p.2 = x)) = 1)
    ∧ ∀ i j (_ : i < (createTournamentRounds ([0, 1, 2, 3] : List Nat)).length)
        (_ : j < (createTournamentRounds ([0, 1, 2, 3] : List Nat)).length),
        i ≠ j →
        ∀ p ∈ (createTournamentRounds ([0, 1, 2, 3] : List Nat))[i],
        ∀ q ∈ (createTournamentRounds ([0, 1, 2, 3] : List Nat))[j],
          ¬ ((p.1 = q.1 ∧ p.2 = q.2) ∨ (p.1 = q.2 ∧ p.2 = q.1)) :=
  claim1_createTournamentRounds [0, 1, 2, 3] (by decide) (by decide)

theorem pairs_of_flat_nodup {α : Type} :
    ∀ (round : List (α × α)),
      (round.flatMap fun p => [p.1, p.2]).Nodup →
      round.Pairwise (fun p q =>
          ¬ ((p.1 = q.1 ∧ p.2 = q.2) ∨ (p.1 = q.2 ∧ p.2 = q.1)))
        ∧ ∀ p ∈ round, p.1 ≠ p.2 := by
  intro round
  induction round with
  | nil => intro _; exact ⟨List.Pairwise.nil, by intro p hp; simp at hp⟩
  | cons p rest ih =>
    intro h
    rw [List.flatMap_cons] at h
    simp only [List.cons_append, List.nil_append, List.nodup_cons] at h
    obtain ⟨h1, h2, h3⟩ := h
    obtain ⟨ihp, ihd⟩ := ih h3
    have hp1 : p.1 ∉ rest.flatMap fun p => [p.1, p.2] := by
      intro hc
      exact h1 (List.mem_cons.mpr (Or.inr hc))
    have hp12 : p.1 ≠ p.2 := by
      intro hc
      exact h1 (List.mem_cons.mpr (Or.inl hc))
    refine ⟨List.Pairwise.cons ?_ ihp, ?_⟩
    · intro q hq hc
      rcases hc with ⟨hA, hB⟩ | ⟨hA, hB⟩
      · exact hp1 (hA ▸ mem_flatPairs_left rest q hq)
      · exact hp1 (hA ▸ mem_flatPairs_right rest q hq)
    · intro q hq
      rcases List.mem_cons.mp hq with h | h
      · subst h
        exact hp12
      · exact ihd q h

theorem single_flatten_pairwise {α : Type} [DecidableEq α] (l : List α)
    (hnd : l.Nodup) (he : Even l.length) :
    ((createTournamentRounds l).flatten).Pairwise (fun p q =>
      ¬ ((p.1 = q.1 ∧ p.2 = q.2) ∨ (p.1 = q.2 ∧ p.2 = q.1))) := by
  rw [List.pairwise_flatten]
  constructor
  · intro round hround
    obtain ⟨r, hr, hre⟩ := List.mem_iff_getElem.mp hround
    subst hre
    have hperm := round_flat_perm l he r hr
    exact (pairs_of_flat_nodup _ (hperm.nodup_iff.mpr hnd)).1
  · rw [List.pairwise_iff_getElem]
    intro i j hi hj hij p hp q hq
    exact rounds_cross_general l hnd he i j hi hj (Nat.ne_of_lt hij) p hp q hq

theorem single_flatten_fst_ne_snd {α : Type} [DecidableEq α] (l : List α)
    (hnd : l.Nodup) (he : Even l.length) (p : α × α)
    (hp : p ∈ (createTournamentRounds l).flatten) : p.1 ≠ p.2 := by
  obtain ⟨round, hround, hpr⟩ := List.mem_flatten.mp hp
  obtain ⟨r, hr, hre⟩ := List.mem_iff_getElem.mp hround
  subst hre
  have hperm := round_flat_perm l he r hr
  exact (pairs_of_flat_nodup _ (hperm.nodup_iff.mpr hnd)).2 p hpr

/-- C2: `createDoubleRoundsTournament` returns the `n - 1` single-cycle
rounds followed by their `n - 1` mirrored rounds (home and away swapped),
for `2(n - 1)` rounds in total, and no ordered (home, away) pair occurs
twice across the whole result. -/
theorem claim2_createDoubleRoundsTournament {α : Type} [DecidableEq α]
    (l : List α) (hnd : l.Nodup) (he : Even l.length) :
    (createDoubleRoundsTournament l).length = 2 * (l.length - 1)
    ∧ (∀ k, k < l.length - 1 →
        (createDoubleRoundsTournament l)[k]? = (createTournamentRounds l)[k]?
        ∧ (createDoubleRoundsTournament l)[(l.length - 1) + k]?
            = ((createTournamentRounds l)[k]?).map
                (List.map (fun p => (p.2, p.1))))
    ∧ ((createDoubleRoundsTournament l).flatten).Nodup := by
  have hlen := createTournamentRounds_length l
  refine ⟨?_, ?_, ?_⟩
  · unfold createDoubleRoundsTournament
    simp only [List.length_append, List.length_map, hlen]
    omega
  · intro k hk
    constructor
    · unfold createDoubleRoundsTournament
      rw [List.getElem?_append]
      rw [if_pos (by rw [hlen]; exact hk)]
    · unfold createDoubleRoundsTournament
      rw [List.getElem?_append_right (by rw [hlen]; omega)]
      rw [hlen]
      have hsub : l.length - 1 + k - (l.length - 1) = k := by omega
      rw [hsub, List.getElem?_map]
  · unfold createDoubleRoundsTournament
    rw [List.flatten_append, List.nodup_append]
    have hpw := single_flatten_pairwise l hnd he
    have hA : ((createTournamentRounds l).flatten).Nodup := by
      refine List.Pairwise.imp ?_ hpw
      intro p q hpq hc
      exact hpq (Or.inl ⟨congrArg Prod.fst hc, congrArg Prod.snd hc⟩)
    have hmapB : ((createTournamentRounds l).map
          (List.map (fun p => (p.2, p.1)))).flatten
        = List.map (fun p : α × α => (p.2, p.1))
            (createTournamentRounds l).flatten := by
      rw [List.map_flatten]
    refine ⟨hA, ?_, ?_⟩
    · rw [hmapB]
      refine List.Nodup.map ?_ hA
      intro a b hab
      cases a
      cases b
      simp only [Prod.mk.injEq] at hab ⊢
      exact ⟨hab.2, hab.1⟩
    · intro p hpA hpB
      rw [hmapB] at hpB
      obtain ⟨q0, hq0, hq0e⟩ := List.mem_map.mp hpB
      by_cases hpq : p = q0
      · subst hpq
        have := single_flatten_fst_ne_snd l hnd he p hpA
        apply this
        have h1 : p.1 = p.2 := by
          have := congrArg Prod.fst hq0e
          simp at this
          exact this.symm
        exact h1
      · have hsym : Symmetric (fun p q : α × α =>
            ¬ ((p.1 = q.1 ∧ p.2 = q.2) ∨ (p.1 = q.2 ∧ p.2 = q.1))) := by
          intro a b hab hc
          apply hab
          rcases hc with ⟨hA1, hB1⟩ | ⟨hA1, hB1⟩
          · exact Or.inl ⟨hA1.symm, hB1.symm⟩
          · exact Or.inr ⟨hB1.symm, hA1.symm⟩
        have hforall := List.Pairwise.forall hsym hpw hpA hq0 hpq
        apply hforall
        right
        constructor
        · have := congrArg Prod.fst hq0e
          simp at this
          exact this.symm
        · have := congrArg Prod.snd hq0e
          simp at this
          exact this.symm

/-- Witness for C2 at the concrete team list `[0, 1, 2, 3]`. -/
theorem claim2_createDoubleRoundsTournament_witness :
    (createDoubleRoundsTournament ([0, 1, 2, 3] : List Nat)).length
        = 2 * (([0, 1, 2, 3] : List Nat).length - 1)
    ∧ (∀ k, k < ([0, 1, 2, 3] : List Nat).length - 1 →
        (createDoubleRoundsTournament ([0, 1, 2, 3] : List Nat))[k]?
            = (createTournamentRounds ([0, 1, 2, 3] : List Nat))[k]?
        ∧ (createDoubleRoundsTournament
              ([0, 1, 2, 3] : List Nat))[(([0, 1, 2, 3] : List Nat).length - 1) + k]?
            = ((createTournamentRounds ([0, 1, 2, 3] : List Nat))[k]?).map
                (List.map (fun p => (p.2, p.1))))
    ∧ ((createDoubleRoundsTournament ([0, 1, 2, 3] : List Nat)).flatten).Nodup :=
  claim2_createDoubleRoundsTournament [0, 1, 2, 3] (by decide) (by decide)

/-! ## Schedule -/

/-- Modelled from the spec: a `Match` of the schedule.  The identifier is
derived from the round index and the pairing index (the spec requires a
deterministic identifier built from these two); `result` is absent until the
match is simulated. -/
structure MatchT where
  id : Nat × Nat
  home : String
  away : String
  result : Option (Nat × Nat)
deriving DecidableEq, Repr

/-- A dated round of a schedule. -/
structure RoundT where
  date : Int
  matchList : List MatchT
deriving DecidableEq, Repr

/-- Modelled from the spec: the `Schedule` constructor of
`tournament-scheduler.ts` (source file missing).  One round per fixture
round of the double round-robin; round `k` is dated `start + 7k` days
(dates count hours, so seven days are `168` hours); each match's identifier
is the pair (round index, pairing index). -/
def scheduleRounds (teams : List String) (start : Int) : List RoundT :=
  (createDoubleRoundsTournament teams).enum.map (fun kr =>
    { date := start + 168 * kr.1,
      matchList := kr.2.enum.map (fun jp =>
        { id := (kr.1, jp.1), home := jp.2.1, away := jp.2.2, result := none }) })

theorem scheduleRounds_length (teams : List String) (start : Int) :
    (scheduleRounds teams start).length
      = (createDoubleRoundsTournament teams).length := by
  unfold scheduleRounds
  rw [List.length_map, List.enum_length]

theorem scheduleRounds_getElem (teams : List String) (start : Int) (k : Nat)
    (hk : k < (scheduleRounds teams start).length)
    (hk2 : k < (createDoubleRoundsTournament teams).length) :
    (scheduleRounds teams start)[k]
      = { date := start + 168 * k,
          matchList := ((createDoubleRoundsTournament teams)[k]).enum.map
            (fun jp =>
              { id := (k, jp.1), home := jp.2.1, away := jp.2.2,
                result := none }) } := by
  unfold scheduleRounds at hk ⊢
  rw [List.getElem_map, List.getElem_enum]

theorem scheduleRounds_ids (teams : List String) (start : Int) (k : Nat)
    (hk : k < (scheduleRounds teams start).length)
    (hk2 : k < (createDoubleRoundsTournament teams).length) :
    ((scheduleRounds teams start)[k]).matchList.map (fun mt => mt.id)
      = (List.range ((createDoubleRoundsTournament teams)[k]).length).map
          (fun j => (k, j)) := by
  rw [scheduleRounds_getElem teams start k hk hk2]
  simp only [List.map_map]
  have h1 : ((createDoubleRoundsTournament teams)[k]).enum.map
        ((fun mt : MatchT => mt.id) ∘ (fun jp =>
          ({ id := (k, jp.1), home := jp.2.1, away := jp.2.2,
             result := none } : MatchT)))
      = ((createDoubleRoundsTournament teams)[k]).enum.map
          ((fun j => (k, j)) ∘ Prod.fst) := by
    apply List.map_congr_left
    intro jp _
    rfl
  rw [h1, ← List.map_map, List.enum_map_fst]

/-- C5: for every team list and start date, the schedule has one round per
fixture round of the double round-robin, round `k` is dated exactly
`start + 7k` days, and every match identifier is unique across the whole
schedule. -/
theorem claim5_Schedule (teams : List String) (start : Int) :
    (scheduleRounds teams start).length
        = (createDoubleRoundsTournament teams).length
    ∧ (∀ k (hk : k < (scheduleRounds teams start).length),
        ((scheduleRounds teams start)[k]).date = start + 168 * k
        ∧ (createDoubleRoundsTournament teams)[k]?
            = some (((scheduleRounds teams start)[k]).matchList.map
                (fun mt => (mt.home, mt.away))))
    ∧ ((scheduleRounds teams start).flatMap
        (fun round => round.matchList.map (fun mt => mt.id))).Nodup := by
  have hlen := scheduleRounds_length teams start
  refine ⟨hlen, ?_, ?_⟩
  · intro k hk
    have hk2 : k < (createDoubleRoundsTournament teams).length := hlen ▸ hk
    rw [scheduleRounds_getElem teams start k hk hk2]
    refine ⟨rfl, ?_⟩
    rw [List.getElem?_eq_getElem hk2]
    congr 1
    simp only [List.map_map]
    have h1 : ((createDoubleRoundsTournament teams)[k]).enum.map
          ((fun mt : MatchT => (mt.home, mt.away)) ∘ (fun jp =>
            ({ id := (k, jp.1), home := jp.2.1, away := jp.2.2,
               result := none } : MatchT)))
        = ((createDoubleRoundsTournament teams)[k]).enum.map Prod.snd := by
      apply List.map_congr_left
      intro jp _
      rfl
    rw [h1, List.enum_map_snd]
  · rw [List.flatMap_def]
    have hnodupflat : ∀ L : List (List (Nat × Nat)),
        (∀ inner ∈ L, inner.Nodup) →
        List.Pairwise (fun l1 l2 => ∀ x ∈ l1, ∀ y ∈ l2, x ≠ y) L →
        L.flatten.Nodup := by
      intro L h1 h2
      rw [List.Nodup, List.pairwise_flatten]
      exact ⟨h1, h2⟩
    apply hnodupflat
    · intro inner hinner
      obtain ⟨k, hk, hke⟩ := List.mem_iff_getElem.mp hinner
      rw [List.getElem_map] at hke
      subst hke
      have hk' : k < (scheduleRounds teams start).length := by
        rw [List.length_map] at hk
        exact hk
      have hk2 : k < (createDoubleRoundsTournament teams).length := hlen ▸ hk'
      rw [scheduleRounds_ids teams start k hk' hk2]
      refine List.Nodup.map ?_ (List.nodup_range _)
      intro a b hab
      exact (Prod.mk.injEq _ _ _ _ ▸ hab).2
    · rw [List.pairwise_iff_getElem]
      intro i j hi hj hij x hx y hy
      rw [List.length_map] at hi hj
      rw [List.getElem_map] at hx hy
      have hi2 : i < (createDoubleRoundsTournament teams).length := hlen ▸ hi
      have hj2 : j < (createDoubleRoundsTournament teams).length := hlen ▸ hj
      rw [scheduleRounds_ids teams start i hi hi2] at hx
      rw [scheduleRounds_ids teams start j hj hj2] at hy
      obtain ⟨a, _, hae⟩ := List.mem_map.mp hx
      obtain ⟨b, _, hbe⟩ := List.mem_map.mp hy
      intro hc
      subst hae
      subst hbe
      have : i = j := (Prod.mk.injEq _ _ _ _ ▸ hc).1
      omega

/-- Witness for C5 at teams `["a", "b"]` and start date `0`. -/
theorem claim5_Schedule_witness :
    (scheduleRounds ["a", "b"] 0).length
        = (createDoubleRoundsTournament ["a", "b"]).length
    ∧ (∀ k (hk : k < (scheduleRounds ["a", "b"] 0).length),
        ((scheduleRounds ["a", "b"] 0)[k]).date = 0 + 168 * k
        ∧ (createDoubleRoundsTournament ["a", "b"])[k]?
            = some (((scheduleRounds ["a", "b"] 0)[k]).matchList.map
                (fun mt => (mt.home, mt.away))))
    ∧ ((scheduleRounds ["a", "b"] 0).flatMap
        (fun round => round.matchList.map (fun mt => mt.id))).Nodup :=
  claim5_Schedule ["a", "b"] 0

/-! ## Dates

A JS `Date` is embedded as an integer number of hours; all date values the
simulation manipulates are whole hours.  `getTime` ordering becomes integer
ordering, `setHours(+h)` becomes `+ h` and `setDate(+d)` becomes `+ 24 * d`.
Construction from (year, month, day) and the `getFullYear` / `getMonth` /
`getDay` accessors use the standard Gregorian civil-calendar conversions
(days-from-civil and civil-from-days), as JS dates do. -/

/-- Days since the Unix epoch of the Gregorian date `y-m-d`, `m ∈ [1, 12]`
(`d` may lie outside the month; days continue linearly), by the standard
days-from-civil algorithm. -/
def daysFromCivil (y m d : Int) : Int :=
  let yAdj : Int := if m ≤ 2 then y - 1 else y
  let era : Int := yAdj / 400
  let yoe : Int := yAdj - era * 400
  let mp : Int := if 2 < m then m - 3 else m + 9
  let doy : Int := (153 * mp + 2) / 5 + d - 1
  let doe : Int := yoe * 365 + yoe / 4 - yoe / 100 + doy
  era * 146097 + doe - 719468

/-- JS `new Date(y, m, d)` at midnight, in hours.  JS months are 0-based
and months outside `[0, 11]` roll the year over. -/
def mkDate (y m d : Int) : Int :=
  24 * daysFromCivil (y + m / 12) (m % 12 + 1) d

/-- Civil (year, month, day) of a day count since the Unix epoch, by the
standard civil-from-days algorithm (month is 1-based). -/
def civilYMD (z0 : Int) : Int × Int × Int :=
  let z : Int := z0 + 719468
  let era : Int := z / 146097
  let doe : Int := z - era * 146097
  let yoe : Int :=
    (doe - doe / 1460 + doe / 36524 - doe / 146096) / 365
  let y : Int := yoe + era * 400
  let doy : Int := doe - (365 * yoe + yoe / 4 - yoe / 100)
  let mp : Int := (5 * doy + 2) / 153
  let d : Int := doy - (153 * mp + 2) / 5 + 1
  let m : Int := if mp < 10 then mp + 3 else mp - 9
  (if m ≤ 2 then y + 1 else y, m, d)

/-- JS `Date.prototype.getFullYear`. -/
def getFullYear (t : Int) : Int := (civilYMD (t / 24)).1

/-- JS `Date.prototype.getMonth` (0-based month). -/
def getMonth (t : Int) : Int := (civilYMD (t / 24)).2.1 - 1

/-- JS `Date.prototype.getDay` (0 = Sunday); the Unix epoch day was a
Thursday. -/
def getDay (t : Int) : Int := (t / 24 + 4) % 7

/-! ## Game state (`game-state.ts`) and simulation (`game-simulation.ts`)

JS objects used as string-keyed tables are embedded as association lists;
`alookup` is property access and `setKey` is property assignment (replace
the existing key in place, else append). -/

/-- Lookup in an association list (JS property read). -/
def alookup {κ β : Type} [DecidableEq κ] : List (κ × β) → κ → Option β
  | [], _ => none
  | kv :: l, k => if kv.1 = k then some kv.2 else alookup l k

/-- Update in an association list (JS property write): replace the first
binding of the key, or append a new binding. -/
def setKey {κ β : Type} [DecidableEq κ] : List (κ × β) → κ → β → List (κ × β)
  | [], k, v => [(k, v)]
  | kv :: l, k, v => if kv.1 = k then (k, v) :: l else kv :: setKey l k v

/-- Player domain object; its skill-growth behaviour is external to the
core (spec §1), so only an identity is kept here. -/
structure Player where
  id : String
deriving DecidableEq, Repr

/-- Team domain object: a name and the roster of signed player ids. -/
structure Team where
  name : String
  playerIds : List String
deriving DecidableEq, Repr

/-- Modelled from the spec: a `Contract` (the `character/team.ts` module is
external): the signed player, the team and the remaining duration. -/
structure Contract where
  playerId : String
  teamName : String
  duration : Int
deriving DecidableEq, Repr

/-- The five `GameEventTypes` of `game-simulation.ts`. -/
inductive GameEventType : Type
  | simRound
  | skillUpdate
  | seasonEnd
  | seasonStart
  | updateContract
deriving DecidableEq, Repr

/-- A `GameEvent`: date, type, and the optional `SimRound` detail. -/
structure GameEvent where
  date : Int
  type : GameEventType
  detail : Option Nat
deriving DecidableEq, Repr

/-- A stored schedule round: `{date, matchIds}` (`game-state.ts`). -/
structure ScheduleRound where
  date : Int
  matchIds : List (Nat × Nat)
deriving DecidableEq, Repr

/-- The game save (`game-state.ts` class `GameState`). -/
structure GameState where
  date : Int
  eventQueue : List GameEvent
  players : List (String × Player)
  teams : List (String × Team)
  contracts : List (String × Contract)
  schedules : List (String × List ScheduleRound)
  matchesTable : List ((Nat × Nat) × MatchT)
deriving DecidableEq, Repr

/-- Modelled from the spec: the external collaborators the simulation
delegates to — `Player.applyMonthlyGrowth` / `applyMonthlyDegrowth`,
`Team.renewExipiringContracts`, and the match outcome source (the spec
calls for an injectable outcome generator in place of the ambient random
scores). -/
structure ExternalOps where
  applyMonthlyGrowth : Player → Int → Player
  applyMonthlyDegrowth : Player → Int → Player
  teamRenewExipiringContracts : GameState → String → GameState
  matchGoals : Nat × Nat → Nat × Nat

/-- `GameState.enqueueGameEvent`'s queue insertion: find the first event
strictly later than `e` (`findIndex`) and splice `e` in before it, else
push at the end. -/
def insertEvent (q : List GameEvent) (e : GameEvent) : List GameEvent :=
  match q.findIdx? (fun evt => decide (e.date < evt.date)) with
  | some i => q.insertIdx i e
  | none => q ++ [e]

/-- `GameState.enqueueGameEvent`: add a game event preserving date order. -/
def GameState.enqueueGameEvent (s : GameState) (e : GameEvent) : GameState :=
  { s with eventQueue := insertEvent s.eventQueue e }

/-- `GameState.saveSchedule`: flatten a schedule into per-round
`{date, matchIds}` records under `key` and store every match body. -/
def GameState.saveSchedule (s : GameState) (schd : List RoundT)
    (key : String) : GameState :=
  { s with
    schedules := setKey s.schedules key
      (schd.map (fun round =>
        { date := round.date,
          matchIds := round.matchList.map (fun mt => mt.id) })),
    matchesTable := schd.foldl
      (fun acc round => round.matchList.foldl
        (fun acc2 mt => setKey acc2 mt.id mt) acc) s.matchesTable }

def NEXT_HOURS : Int := 12

def SEASON_START_MONTH : Int := 8

def SEASON_START_DATE : Int := 1

def SEASON_END_MONTH : Int := 5

def SEASON_END_DATE : Int := 1

/-- `updateContracts`: decrement every contract's duration. -/
def updateContracts (gs : GameState) : GameState :=
  { gs with
    contracts := gs.contracts.map
      (fun kc => (kc.1, { kc.2 with duration := kc.2.duration - 1 })) }

/-- `renewExipiringContracts`: every team tries to re-sign its expiring
players (delegated to the external `Team.renewExipiringContracts`). -/
def renewExipiringContracts (ops : ExternalOps) (gs : GameState) : GameState :=
  (gs.teams.map Prod.fst).foldl ops.teamRenewExipiringContracts gs

/-- Modelled from the spec: `Team.unsignPlayer` (external module): remove
the player's contract and take the player off the team roster. -/
def unsignPlayer (gs : GameState) (c : Contract) : GameState :=
  { gs with
    contracts := gs.contracts.eraseP (fun kc => decide (kc.1 = c.playerId)),
    teams := gs.teams.map (fun kt =>
      if kt.1 = c.teamName then
        (kt.1, { kt.2 with playerIds :=
          kt.2.playerIds.filter (fun pid => decide (pid ≠ c.playerId)) })
      else kt) }

/-- `removeExpiredContracts`: unsign every player whose contract duration
is exactly 0 (iterating over a snapshot of the contract values, as JS
`Object.values(...).forEach` does). -/
def removeExpiredContracts (gs : GameState) : GameState :=
  (gs.contracts.map Prod.snd).foldl
    (fun g c => if c.duration = 0 then unsignPlayer g c else g) gs

/-- `handleUpdateContracts`: age, renew, then remove expired; never asks to
stop. -/
def handleUpdateContracts (ops : ExternalOps) (gs : GameState) :
    GameState × Bool :=
  (removeExpiredContracts (renewExipiringContracts ops (updateContracts gs)),
    false)

/-- `updateSkills`: apply monthly growth then degrowth to every player. -/
def updateSkills (ops : ExternalOps) (gs : GameState) : GameState :=
  { gs with players := gs.players.map (fun kp =>
      (kp.1, ops.applyMonthlyDegrowth
        (ops.applyMonthlyGrowth kp.2 gs.date) gs.date)) }

/-- `enqueueSkillUpdateEvent`: a skillUpdate event on the first day of the
next month. -/
def enqueueSkillUpdateEvent (gs : GameState) : GameState :=
  GameState.enqueueGameEvent gs
    { date := mkDate (getFullYear gs.date) (getMonth gs.date + 1) 1,
      type := GameEventType.skillUpdate, detail := none }

/-- `enqueueSeasonEndEvent`: a seasonEnd event on June 1 of next year. -/
def enqueueSeasonEndEvent (gs : GameState) : GameState :=
  GameState.enqueueGameEvent gs
    { date := mkDate (getFullYear gs.date + 1) SEASON_END_MONTH SEASON_END_DATE,
      type := GameEventType.seasonEnd, detail := none }

/-- `enqueueSeasonStartEvent`: a seasonStart event on September 1 of this
year. -/
def enqueueSeasonStartEvent (gs : GameState) : GameState :=
  GameState.enqueueGameEvent gs
    { date := mkDate (getFullYear gs.date) SEASON_START_MONTH SEASON_START_DATE,
      type := GameEventType.seasonStart, detail := none }

/-- `enqueueUpdateContractEvent`: an updateContract event one day after the
given date. -/
def enqueueUpdateContractEvent (gs : GameState) (d : Int) : GameState :=
  GameState.enqueueGameEvent gs
    { date := d + 24, type := GameEventType.updateContract, detail := none }

/-- `enqueueSimRoundEvent`: a simRound event for the given current-season
round, only if that round exists. -/
def enqueueSimRoundEvent (gs : GameState) (round : Nat) : GameState :=
  match alookup gs.schedules "now" with
  | none => gs
  | some rounds =>
    match rounds[round]? with
    | none => gs
    | some rd =>
      GameState.enqueueGameEvent gs
        { date := rd.date, type := GameEventType.simRound,
          detail := some round }

/-- `simulateMatch`: write an outcome on the stored match; reading a match
that is not in the table is a JS `TypeError`. -/
def simulateMatch (ops : ExternalOps) (gs : GameState) (matchId : Nat × Nat) :
    Except String GameState :=
  match alookup gs.matchesTable matchId with
  | none => Except.error "TypeError: match is undefined"
  | some mt =>
    Except.ok
      { gs with
        matchesTable := setKey gs.matchesTable matchId
          { mt with result := some (ops.matchGoals matchId) } }

/-- `simulateRound`: simulate every match of the given round of the current
season's schedule; a missing schedule or round is silently skipped. -/
def simulateRound (ops : ExternalOps) (gs : GameState) (round : Nat) :
    Except String GameState :=
  match alookup gs.schedules "now" with
  | none => Except.ok gs
  | some rounds =>
    match rounds[round]? with
    | none => Except.ok gs
    | some rd => rd.matchIds.foldlM (fun g matchId => simulateMatch ops g matchId) gs

/-- `newSeasonSchedule`: build and store the current-season schedule
starting the first Sunday after September 1; throws when called on or after
September 2. -/
def newSeasonSchedule (gs : GameState) (teams : List String) :
    Except String GameState :=
  let start := mkDate (getFullYear gs.date) SEASON_START_MONTH
    (SEASON_START_DATE + 1)
  if start ≤ gs.date then
    Except.error "should be called before september second"
  else
    let daysToSunday := (7 - getDay start) % 7
    Except.ok (GameState.saveSchedule gs
      (scheduleRounds teams (start + 24 * daysToSunday)) "now")

/-- `storeEndedSeasonSchedule`: archive the current season (when present)
under the key `{startYear}-{endYear}`; reading the first/last round of an
empty stored schedule is a JS `TypeError`. -/
def storeEndedSeasonSchedule (gs : GameState) : Except String GameState :=
  match alookup gs.schedules "now" with
  | none => Except.ok gs
  | some schd =>
    match schd.head?, schd.getLast? with
    | some r0, some rl =>
      Except.ok
        { gs with
          schedules := setKey gs.schedules
            (toString (getFullYear r0.date) ++ "-"
              ++ toString (getFullYear rl.date)) schd }
    | _, _ => Except.error "TypeError: round is undefined"

/-- `handleSimRound`: simulate the round named by the event detail and
enqueue the next one; a missing detail is a JS `TypeError`. -/
def handleSimRound (ops : ExternalOps) (gs : GameState) (detail : Option Nat) :
    Except String (GameState × Bool) :=
  match detail with
  | none => Except.error "TypeError: detail is undefined"
  | some r => do
    let g1 ← simulateRound ops gs r
    Except.ok (enqueueSimRoundEvent g1 (r + 1), false)

/-- `handleSkillUpdate`: update skills, enqueue the next monthly update,
ask to stop. -/
def handleSkillUpdate (ops : ExternalOps) (gs : GameState) : GameState × Bool :=
  (enqueueSkillUpdateEvent (updateSkills ops gs), true)

/-- `handleSeasonEnd`: archive the season, enqueue seasonStart and
updateContract, ask to stop. -/
def handleSeasonEnd (gs : GameState) (e : GameEvent) :
    Except String (GameState × Bool) := do
  let g1 ← storeEndedSeasonSchedule gs
  Except.ok (enqueueUpdateContractEvent (enqueueSeasonStartEvent g1) e.date, true)

/-- `handleSeasonStart`: build the new season schedule for all current
teams, enqueue simRound(0) and seasonEnd, ask to stop. -/
def handleSeasonStart (gs : GameState) : Except String (GameState × Bool) := do
  let g1 ← newSeasonSchedule gs (gs.teams.map Prod.fst)
  Except.ok (enqueueSeasonEndEvent (enqueueSimRoundEvent g1 0), true)

/-- `handleGameEvent`: dispatch on the event type. -/
def handleGameEvent (ops : ExternalOps) (gs : GameState) (evt : GameEvent) :
    Except String (GameState × Bool) :=
  match evt.type with
  | GameEventType.simRound => handleSimRound ops gs evt.detail
  | GameEventType.skillUpdate => Except.ok (handleSkillUpdate ops gs)
  | GameEventType.seasonEnd => handleSeasonEnd gs evt
  | GameEventType.seasonStart => handleSeasonStart gs
  | GameEventType.updateContract => Except.ok (handleUpdateContracts ops gs)

/-- The body of `process`'s `for` loop: with `NEXT_HOURS = 12` the loop
guard `t < 24` runs the body at `t = 0` and `t = 12`, i.e. at most twice
(`fuel` counts the remaining iterations); when the guard fails `process`
returns whether the queue is empty. -/
def processLoop (ops : ExternalOps) : GameState → Nat →
    Except String (GameState × Bool)
  | gs, 0 => Except.ok (gs, gs.eventQueue.isEmpty)
  | gs, fuel + 1 =>
    match gs.eventQueue with
    | [] => Except.ok (gs, true)
    | e :: rest =>
      if e.date ≤ gs.date then
        handleGameEvent ops { gs with eventQueue := rest } e
      else
        processLoop ops { gs with date := gs.date + NEXT_HOURS } fuel

/-- `process`: drive the game clock for at most one handled event or 24
simulated hours. -/
def process (ops : ExternalOps) (gs : GameState) :
    Except String (GameState × Bool) :=
  processLoop ops gs 2

/-! ## C4: event-queue insertion -/

theorem insertEvent_nil (e : GameEvent) : insertEvent [] e = [e] := rfl

theorem insertEvent_cons_lt (evt : GameEvent) (q : List GameEvent)
    (e : GameEvent) (h : e.date < evt.date) :
    insertEvent (evt :: q) e = e :: evt :: q := by
  unfold insertEvent
  rw [List.findIdx?_cons, if_pos (by simp [h])]
  rfl

theorem insertEvent_cons_ge (evt : GameEvent) (q : List GameEvent)
    (e : GameEvent) (h : ¬ e.date < evt.date) :
    insertEvent (evt :: q) e = evt :: insertEvent q e := by
  unfold insertEvent
  rw [List.findIdx?_cons, if_neg (by simp [h]), List.findIdx?_succ]
  cases hfi : List.findIdx? (fun evt2 => decide (e.date < evt2.date)) q with
  | none => simp
  | some i =>
    simp only [Option.map_some']
    rw [List.insertIdx_succ_cons]

theorem insertEvent_eq (q : List GameEvent) (e : GameEvent) :
    insertEvent q e
      = q.takeWhile (fun evt => decide (evt.date ≤ e.date))
        ++ e :: q.dropWhile (fun evt => decide (evt.date ≤ e.date)) := by
  induction q with
  | nil => rfl
  | cons evt q' ih =>
    by_cases h : e.date < evt.date
    · rw [insertEvent_cons_lt evt q' e h]
      rw [List.takeWhile_cons, List.dropWhile_cons]
      rw [if_neg (by simp; omega), if_neg (by simp; omega)]
      rfl
    · rw [insertEvent_cons_ge evt q' e h]
      rw [List.takeWhile_cons, List.dropWhile_cons]
      rw [if_pos (by simp; omega), if_pos (by simp; omega)]
      rw [ih]
      rfl

theorem mem_of_takeWhile {α : Type} (p : α → Bool) (l : List α) (x : α)
    (h : x ∈ l.takeWhile p) : x ∈ l := by
  have he := List.takeWhile_append_dropWhile (p := p) (l := l)
  rw [← he]
  exact List.mem_append_left _ h

theorem mem_of_dropWhile {α : Type} (p : α → Bool) (l : List α) (x : α)
    (h : x ∈ l.dropWhile p) : x ∈ l := by
  have he := List.takeWhile_append_dropWhile (p := p) (l := l)
  rw [← he]
  exact List.mem_append_right _ h

theorem sorted_insertEvent (q : List GameEvent) (e : GameEvent)
    (hs : q.Pairwise (fun a b => a.date ≤ b.date)) :
    (insertEvent q e).Pairwise (fun a b => a.date ≤ b.date) := by
  induction q with
  | nil =>
    rw [insertEvent_nil]
    exact List.pairwise_singleton _ e
  | cons evt q' ih =>
    rw [List.pairwise_cons] at hs
    by_cases h : e.date < evt.date
    · rw [insertEvent_cons_lt evt q' e h]
      rw [List.pairwise_cons]
      constructor
      · intro b hb
        rcases List.mem_cons.mp hb with hb | hb
        · subst hb
          omega
        · have := hs.1 b hb
          omega
      · rw [List.pairwise_cons]
        exact hs
    · rw [insertEvent_cons_ge evt q' e h]
      rw [List.pairwise_cons]
      constructor
      · intro b hb
        rw [insertEvent_eq] at hb
        rcases List.mem_append.mp hb with hb | hb
        · exact hs.1 b (mem_of_takeWhile _ _ b hb)
        · rcases List.mem_cons.mp hb with hb | hb
          · subst hb
            omega
          · exact hs.1 b (mem_of_dropWhile _ _ b hb)
      · exact ih hs.2

/-- C4: `GameState.enqueueGameEvent` inserts the event immediately before
the first queued event with a strictly greater date (after all events with
an equal or smaller date), or at the end if none; consequently a queue that
is sorted ascending by date stays sorted. -/
theorem claim4_enqueueGameEvent (gs : GameState) (e : GameEvent) :
    (GameState.enqueueGameEvent gs e).eventQueue
        = gs.eventQueue.takeWhile (fun evt => decide (evt.date ≤ e.date))
          ++ e :: gs.eventQueue.dropWhile (fun evt => decide (evt.date ≤ e.date))
    ∧ (gs.eventQueue.Pairwise (fun a b => a.date ≤ b.date) →
        (GameState.enqueueGameEvent gs e).eventQueue.Pairwise
          (fun a b => a.date ≤ b.date)) :=
  ⟨insertEvent_eq gs.eventQueue e,
    fun hs => sorted_insertEvent gs.eventQueue e hs⟩

/-! ## C3 and C9: the simulation clock -/

/-- C3: one `process` call: an empty queue reports "may stop" immediately;
otherwise the earliest event is checked before each of at most two 12-hour
steps, the first due check dispatches exactly that event (after removing it)
and `process` returns the handler's stop/continue outcome; if nothing comes
due, the date has advanced by 24 hours and the call reports "continue". -/
theorem processLoop_nil (ops : ExternalOps) (gs : GameState) (fuel : Nat)
    (hq : gs.eventQueue = []) :
    processLoop ops gs (fuel + 1) = Except.ok (gs, true) := by
  unfold processLoop
  rw [hq]

theorem processLoop_cons (ops : ExternalOps) (gs : GameState) (e : GameEvent)
    (rest : List GameEvent) (fuel : Nat) (hq : gs.eventQueue = e :: rest) :
    processLoop ops gs (fuel + 1)
      = if e.date ≤ gs.date then
          handleGameEvent ops { gs with eventQueue := rest } e
        else
          processLoop ops { gs with date := gs.date + NEXT_HOURS } fuel := by
  conv_lhs => unfold processLoop
  rw [hq]

theorem processLoop_zero_cons (ops : ExternalOps) (gs : GameState)
    (e : GameEvent) (rest : List GameEvent) (hq : gs.eventQueue = e :: rest) :
    processLoop ops gs 0 = Except.ok (gs, false) := by
  show Except.ok (gs, gs.eventQueue.isEmpty) = Except.ok (gs, false)
  rw [hq]
  rfl

theorem claim3_process (ops : ExternalOps) (gs : GameState) :
    (gs.eventQueue = [] → process ops gs = Except.ok (gs, true))
    ∧ ∀ e rest, gs.eventQueue = e :: rest →
        (e.date ≤ gs.date →
          process ops gs
            = handleGameEvent ops { gs with eventQueue := rest } e)
        ∧ (gs.date < e.date → e.date ≤ gs.date + 12 →
          process ops gs
            = handleGameEvent ops
                { gs with date := gs.date + 12, eventQueue := rest } e)
        ∧ (gs.date + 12 < e.date →
          process ops gs
            = Except.ok ({ gs with date := gs.date + 24 }, false)) := by
  constructor
  · intro hq
    exact processLoop_nil ops gs 1 hq
  · intro e rest hq
    have hstep : ({ gs with date := gs.date + NEXT_HOURS } : GameState).eventQueue
        = e :: rest := hq
    refine ⟨?_, ?_, ?_⟩
    · intro hle
      show processLoop ops gs 2 = _
      rw [processLoop_cons ops gs e rest 1 hq, if_pos hle]
    · intro hgt hle2
      show processLoop ops gs 2 = _
      rw [processLoop_cons ops gs e rest 1 hq, if_neg (by
        show ¬ e.date ≤ gs.date
        omega)]
      rw [processLoop_cons ops _ e rest 0 hstep]
      rw [if_pos (by
        show e.date ≤ ({ gs with date := gs.date + NEXT_HOURS } : GameState).date
        show e.date ≤ gs.date + NEXT_HOURS
        show e.date ≤ gs.date + 12
        omega)]
      rfl
    · intro hgt2
      show processLoop ops gs 2 = _
      rw [processLoop_cons ops gs e rest 1 hq, if_neg (by
        show ¬ e.date ≤ gs.date
        omega)]
      rw [processLoop_cons ops _ e rest 0 hstep]
      rw [if_neg (by
        show ¬ e.date ≤ ({ gs with date := gs.date + NEXT_HOURS } : GameState).date
        show ¬ e.date ≤ gs.date + 12
        omega)]
      show processLoop ops
          ({ gs with date := gs.date + NEXT_HOURS + NEXT_HOURS } : GameState) 0
          = _
      rw [processLoop_zero_cons ops
        ({ gs with date := gs.date + NEXT_HOURS + NEXT_HOURS } : GameState)
        e rest hq]
      have h24 : gs.date + NEXT_HOURS + NEXT_HOURS = gs.date + 24 := by
        show gs.date + 12 + 12 = gs.date + 24
        ring
      rw [h24]

/-- A concrete instantiation of the external collaborators, for witnesses. -/
def noOps : ExternalOps :=
  { applyMonthlyGrowth := fun p _ => p,
    applyMonthlyDegrowth := fun p _ => p,
    teamRenewExipiringContracts := fun g _ => g,
    matchGoals := fun _ => (0, 0) }

/-- An empty game state dated at the epoch, for witnesses. -/
def emptyState : GameState :=
  { date := 0, eventQueue := [], players := [], teams := [], contracts := [],
    schedules := [], matchesTable := [] }

/-- An event far in the future, for witnesses. -/
def farEvent : GameEvent :=
  { date := 100, type := GameEventType.skillUpdate, detail := none }

/-- Witness for C3: a queue whose earliest event lies beyond the 24-hour
budget makes `process` advance the date by 24 hours and report continue. -/
theorem claim3_process_witness :
    process noOps { emptyState with eventQueue := [farEvent] }
      = Except.ok
          ({ emptyState with date := 24, eventQueue := [farEvent] }, false) := by
  have h := (claim3_process noOps
    { emptyState with eventQueue := [farEvent] }).2 farEvent [] rfl
  have h3 := h.2.2 (by decide)
  have h24 : ({ emptyState with eventQueue := [farEvent] } : GameState).date + 24
      = (24 : Int) := by decide
  rw [h3]
  rw [h24]

/-- C9: calling `process` on a state with an empty event queue returns the
stop signal and the very same state - no field is modified. -/
theorem claim9_process_empty_queue (ops : ExternalOps) (gs : GameState)
    (h : gs.eventQueue = []) : process ops gs = Except.ok (gs, true) := by
  show processLoop ops gs 2 = Except.ok (gs, true)
  unfold processLoop
  rw [h]

/-- Witness for C9 at the empty state. -/
theorem claim9_process_empty_queue_witness :
    process noOps emptyState = Except.ok (emptyState, true) :=
  claim9_process_empty_queue noOps emptyState rfl

/-- Witness for C4: inserting an event dated 5 into a queue with dates 3
and 8 puts it after 3 and before 8, and keeps the queue sorted. -/
theorem claim4_enqueueGameEvent_witness :
    (GameState.enqueueGameEvent
        { emptyState with eventQueue :=
            [{ date := 3, type := GameEventType.seasonEnd, detail := none },
             { date := 8, type := GameEventType.seasonStart, detail := none }] }
        { date := 5, type := GameEventType.updateContract,
          detail := none }).eventQueue
      = ({ emptyState with eventQueue :=
            [{ date := 3, type := GameEventType.seasonEnd, detail := none },
             { date := 8, type := GameEventType.seasonStart,
               detail := none }] } : GameState).eventQueue.takeWhile
            (fun evt => decide (evt.date ≤ (5 : Int)))
          ++ { date := 5, type := GameEventType.updateContract, detail := none }
            :: ({ emptyState with eventQueue :=
              [{ date := 3, type := GameEventType.seasonEnd, detail := none },
               { date := 8, type := GameEventType.seasonStart,
                 detail := none }] } : GameState).eventQueue.dropWhile
              (fun evt => decide (evt.date ≤ (5 : Int)))
    ∧ (GameState.enqueueGameEvent
        { emptyState with eventQueue :=
            [{ date := 3, type := GameEventType.seasonEnd, detail := none },
             { date := 8, type := GameEventType.seasonStart, detail := none }] }
        { date := 5, type := GameEventType.updateContract,
          detail := none }).eventQueue.Pairwise (fun a b => a.date ≤ b.date) := by
  have h := claim4_enqueueGameEvent
    { emptyState with eventQueue :=
        [{ date := 3, type := GameEventType.seasonEnd, detail := none },
         { date := 8, type := GameEventType.seasonStart, detail := none }] }
    { date := 5, type := GameEventType.updateContract, detail := none }
  refine ⟨h.1, h.2 ?_⟩
  decide

/-! ## C6: season start scheduling -/

theorem alookup_setKey_self {κ β : Type} [DecidableEq κ]
    (l : List (κ × β)) (k : κ) (v : β) : alookup (setKey l k v) k = some v := by
  induction l with
  | nil => simp [setKey, alookup]
  | cons kv l ih =>
    by_cases h : kv.1 = k
    · simp [setKey, h, alookup]
    · simp [setKey, h, alookup, ih]

theorem alookup_setKey_ne {κ β : Type} [DecidableEq κ]
    (l : List (κ × β)) (k k2 : κ) (v : β) (hne : k2 ≠ k) :
    alookup (setKey l k v) k2 = alookup l k2 := by
  have hne2 : ¬ k = k2 := fun hx => hne hx.symm
  induction l with
  | nil =>
    show (if k = k2 then some v else alookup [] k2) = alookup [] k2
    rw [if_neg hne2]
  | cons kv l ih =>
    show alookup (if kv.1 = k then (k, v) :: l else kv :: setKey l k v) k2 = _
    by_cases h : kv.1 = k
    · rw [if_pos h]
      show (if k = k2 then some v else alookup l k2) = _
      rw [if_neg hne2]
      show _ = (if kv.1 = k2 then some kv.2 else alookup l k2)
      rw [if_neg (by rw [h]; exact hne2)]
    · rw [if_neg h]
      show (if kv.1 = k2 then some kv.2 else alookup (setKey l k v) k2)
        = (if kv.1 = k2 then some kv.2 else alookup l k2)
      rw [ih]

theorem getDay_of_midnight (D : Int) : getDay (24 * D) = (D + 4) % 7 := by
  unfold getDay
  have h : (24 * D) / 24 = D := by omega
  rw [h]

/-- The shift `(7 - getDay s) % 7` lands on the first Sunday on or after a
midnight `s`. -/
theorem first_sunday (s2 : Int) (hmul : ∃ D, s2 = 24 * D) :
    s2 ≤ s2 + 24 * ((7 - getDay s2) % 7)
    ∧ getDay (s2 + 24 * ((7 - getDay s2) % 7)) = 0
    ∧ ∀ d : Int, s2 ≤ d → d < s2 + 24 * ((7 - getDay s2) % 7) →
        d % 24 = 0 → getDay d ≠ 0 := by
  obtain ⟨D, hD⟩ := hmul
  subst hD
  rw [getDay_of_midnight]
  have hsum : 24 * D + 24 * ((7 - (D + 4) % 7) % 7)
      = 24 * (D + (7 - (D + 4) % 7) % 7) := by ring
  refine ⟨by omega, ?_, ?_⟩
  · rw [hsum, getDay_of_midnight]
    omega
  · intro d h1 h2 h3
    have hE : ∃ E, d = 24 * E := ⟨d / 24, by omega⟩
    obtain ⟨E, hEe⟩ := hE
    subst hEe
    rw [getDay_of_midnight]
    omega

/-- C6: `newSeasonSchedule` fails exactly when the current date is on or
after midnight, September 2 of the current date's year; otherwise it stores
under "now" the flattened rounds of a schedule whose round `k` is dated
`start + 7k` days from the first Sunday `start` on or after September 2. -/
theorem claim6_newSeasonSchedule (gs : GameState) (teams : List String) :
    ((∃ msg, newSeasonSchedule gs teams = Except.error msg) ↔
      mkDate (getFullYear gs.date) 8 2 ≤ gs.date)
    ∧ ∀ gs2, newSeasonSchedule gs teams = Except.ok gs2 →
      ∃ start : Int,
        mkDate (getFullYear gs.date) 8 2 ≤ start
        ∧ getDay start = 0
        ∧ (∀ d : Int, mkDate (getFullYear gs.date) 8 2 ≤ d → d < start →
            d % 24 = 0 → getDay d ≠ 0)
        ∧ alookup gs2.schedules "now"
            = some ((scheduleRounds teams start).map (fun round =>
                { date := round.date,
                  matchIds := round.matchList.map (fun mt => mt.id) }))
        ∧ ∀ k (hk : k < (scheduleRounds teams start).length),
            ((scheduleRounds teams start)[k]).date = start + 168 * k := by
  have hm : mkDate (getFullYear gs.date) SEASON_START_MONTH
      (SEASON_START_DATE + 1) = mkDate (getFullYear gs.date) 8 2 := rfl
  constructor
  · constructor
    · rintro ⟨msg, he⟩
      by_cases h : mkDate (getFullYear gs.date) 8 2 ≤ gs.date
      · exact h
      · exfalso
        unfold newSeasonSchedule at he
        rw [hm, if_neg h] at he
        exact Except.noConfusion he
    · intro h
      refine ⟨"should be called before september second", ?_⟩
      unfold newSeasonSchedule
      rw [hm, if_pos h]
  · intro gs2 hok
    unfold newSeasonSchedule at hok
    rw [hm] at hok
    by_cases h : mkDate (getFullYear gs.date) 8 2 ≤ gs.date
    · rw [if_pos h] at hok
      exact Except.noConfusion hok
    · rw [if_neg h] at hok
      have hok2 := Except.ok.inj hok
      have hmul : ∃ D, mkDate (getFullYear gs.date) 8 2 = 24 * D :=
        ⟨daysFromCivil (getFullYear gs.date + 8 / 12) (8 % 12 + 1) 2, rfl⟩
      obtain ⟨hle, hday, hmin⟩ := first_sunday (mkDate (getFullYear gs.date) 8 2) hmul
      refine ⟨mkDate (getFullYear gs.date) 8 2
        + 24 * ((7 - getDay (mkDate (getFullYear gs.date) 8 2)) % 7),
        hle, hday, hmin, ?_, ?_⟩
      · rw [← hok2]
        exact alookup_setKey_self gs.schedules "now" _
      · intro k hk
        have hk2 : k < (createDoubleRoundsTournament teams).length := by
          rw [← scheduleRounds_length teams _]
          exact hk
        rw [scheduleRounds_getElem teams _ k hk hk2]

/-! ## C7: simRound handling -/

theorem simulateMatches_fold (ops : ExternalOps) :
    ∀ (ids : List (Nat × Nat)) (gs : GameState),
      (∀ mid ∈ ids, (alookup gs.matchesTable mid).isSome) →
      ∃ gs1,
        ids.foldlM (fun g mid => simulateMatch ops g mid) gs = Except.ok gs1
        ∧ gs1.eventQueue = gs.eventQueue
        ∧ gs1.schedules = gs.schedules
        ∧ gs1.date = gs.date
        ∧ (∀ mid ∈ ids, ∃ mt, alookup gs1.matchesTable mid = some mt
            ∧ mt.result = some (ops.matchGoals mid))
        ∧ (∀ mid, mid ∉ ids →
            alookup gs1.matchesTable mid = alookup gs.matchesTable mid) := by
  intro ids
  induction ids with
  | nil =>
    intro gs _
    refine ⟨gs, rfl, rfl, rfl, rfl, ?_, ?_⟩
    · intro mid hmid
      simp at hmid
    · intro mid _
      rfl
  | cons mid0 ids ih =>
    intro gs hall
    have hmem : (alookup gs.matchesTable mid0).isSome :=
      hall mid0 (List.mem_cons_self mid0 ids)
    obtain ⟨mt0, hmt0⟩ := Option.isSome_iff_exists.mp hmem
    set mtNew : MatchT := { mt0 with result := some (ops.matchGoals mid0) }
      with hmtNew
    have hsim : simulateMatch ops gs mid0
        = Except.ok { gs with matchesTable := setKey gs.matchesTable mid0 mtNew } := by
      unfold simulateMatch
      rw [hmt0]
    set gsB : GameState :=
      { gs with matchesTable := setKey gs.matchesTable mid0 mtNew } with hgsB
    have hallB : ∀ mid ∈ ids, (alookup gsB.matchesTable mid).isSome := by
      intro mid hmid
      by_cases he : mid = mid0
      · subst he
        show (alookup (setKey gs.matchesTable mid _) mid).isSome
        rw [alookup_setKey_self]
        rfl
      · show (alookup (setKey gs.matchesTable mid0 _) mid).isSome
        rw [alookup_setKey_ne _ _ _ _ he]
        exact hall mid (List.mem_cons_of_mem mid0 hmid)
    obtain ⟨gs1, hfold, hq, hsch, hdate, hdone, hrest⟩ := ih gsB hallB
    refine ⟨gs1, ?_, hq, hsch, hdate, ?_, ?_⟩
    · rw [List.foldlM_cons, hsim]
      exact hfold
    · intro mid hmid
      rcases List.mem_cons.mp hmid with he | hmem2
      · subst he
        by_cases hin : mid ∈ ids
        · exact hdone mid hin
        · refine ⟨mtNew, ?_, rfl⟩
          rw [hrest mid hin]
          show alookup (setKey gs.matchesTable mid mtNew) mid = _
          rw [alookup_setKey_self]
      · exact hdone mid hmem2
    · intro mid hnot
      have hnot2 : mid ∉ ids := fun hc => hnot (List.mem_cons_of_mem _ hc)
      have hne0 : mid ≠ mid0 := fun hc => hnot (hc ▸ List.mem_cons_self mid0 ids)
      rw [hrest mid hnot2]
      show alookup (setKey gs.matchesTable mid0 _) mid = _
      rw [alookup_setKey_ne _ _ _ _ hne0]

/-- C7: a simRound event whose schedule is absent or whose round does not
exist is a silent no-op returning continue; when the round exists (and its
matches are stored), every match of the round gets a result written and a
simRound(r+1) follow-up is enqueued exactly when round `r+1` exists. -/
theorem claim7_handleSimRound (ops : ExternalOps) (gs : GameState) (r : Nat) :
    ((alookup gs.schedules "now" = none
        ∨ ∃ rounds, alookup gs.schedules "now" = some rounds
            ∧ rounds[r]? = none) →
      handleSimRound ops gs (some r) = Except.ok (gs, false))
    ∧ ∀ rounds rd, alookup gs.schedules "now" = some rounds →
        rounds[r]? = some rd →
        (∀ mid ∈ rd.matchIds, (alookup gs.matchesTable mid).isSome) →
        ∃ gs1, simulateRound ops gs r = Except.ok gs1
          ∧ handleSimRound ops gs (some r)
              = Except.ok (enqueueSimRoundEvent gs1 (r + 1), false)
          ∧ (∀ mid ∈ rd.matchIds, ∃ mt,
              alookup gs1.matchesTable mid = some mt
                ∧ mt.result = some (ops.matchGoals mid))
          ∧ gs1.eventQueue = gs.eventQueue
          ∧ gs1.schedules = gs.schedules
          ∧ (∀ rd2, rounds[r + 1]? = some rd2 →
              (enqueueSimRoundEvent gs1 (r + 1)).eventQueue
                = insertEvent gs.eventQueue
                    { date := rd2.date, type := GameEventType.simRound,
                      detail := some (r + 1) })
          ∧ (rounds[r + 1]? = none →
              enqueueSimRoundEvent gs1 (r + 1) = gs1) := by
  constructor
  · intro hcase
    have hsimr : simulateRound ops gs r = Except.ok gs := by
      unfold simulateRound
      rcases hcase with hnone | ⟨rounds, hsome, hnone⟩
      · rw [hnone]
      · rw [hsome]
        show (match rounds[r]? with
          | none => Except.ok gs
          | some rd =>
            rd.matchIds.foldlM (fun g matchId => simulateMatch ops g matchId) gs)
          = Except.ok gs
        rw [hnone]
    have hnoenq : enqueueSimRoundEvent gs (r + 1) = gs := by
      unfold enqueueSimRoundEvent
      rcases hcase with hnone | ⟨rounds, hsome, hnone⟩
      · rw [hnone]
      · rw [hsome]
        have hnone2 : rounds[r + 1]? = none := by
          rw [List.getElem?_eq_none_iff] at hnone ⊢
          omega
        show (match rounds[r + 1]? with
          | none => gs
          | some rd =>
            GameState.enqueueGameEvent gs
              { date := rd.date, type := GameEventType.simRound,
                detail := some (r + 1) }) = gs
        rw [hnone2]
    show (do
      let g1 ← simulateRound ops gs r
      Except.ok (enqueueSimRoundEvent g1 (r + 1), false)) = _
    rw [hsimr]
    show Except.ok (enqueueSimRoundEvent gs (r + 1), false) = _
    rw [hnoenq]
  · intro rounds rd hsome hrd hall
    obtain ⟨gs1, hfold, hq, hsch, _, hdone, _⟩ :=
      simulateMatches_fold ops rd.matchIds gs hall
    have hsimr : simulateRound ops gs r = Except.ok gs1 := by
      unfold simulateRound
      rw [hsome]
      show (match rounds[r]? with
        | none => Except.ok gs
        | some rd =>
          rd.matchIds.foldlM (fun g matchId => simulateMatch ops g matchId) gs)
        = Except.ok gs1
      rw [hrd]
      exact hfold
    refine ⟨gs1, hsimr, ?_, hdone, hq, hsch, ?_, ?_⟩
    · show (do
        let g1 ← simulateRound ops gs r
        Except.ok (enqueueSimRoundEvent g1 (r + 1), false)) = _
      rw [hsimr]
      rfl
    · intro rd2 hrd2
      unfold enqueueSimRoundEvent
      rw [hsch, hsome]
      show (match rounds[r + 1]? with
        | none => gs1
        | some rd =>
          GameState.enqueueGameEvent gs1
            { date := rd.date, type := GameEventType.simRound,
              detail := some (r + 1) }).eventQueue = _
      rw [hrd2]
      show insertEvent gs1.eventQueue _ = _
      rw [hq]
    · intro hnone
      unfold enqueueSimRoundEvent
      rw [hsch, hsome]
      show (match rounds[r + 1]? with
        | none => gs1
        | some rd =>
          GameState.enqueueGameEvent gs1
            { date := rd.date, type := GameEventType.simRound,
              detail := some (r + 1) }) = gs1
      rw [hnone]

/-- A one-round, one-match current season, for witnesses. -/
def round0 : ScheduleRound := { date := 0, matchIds := [(0, 0)] }

/-- The stored match of `round0`. -/
def match00 : MatchT := { id := (0, 0), home := "a", away := "b", result := none }

/-- A state holding `round0` as the current season, for witnesses. -/
def simState : GameState :=
  { emptyState with
    schedules := [("now", [round0])],
    matchesTable := [((0, 0), match00)] }

/-- Witness for C7: simulating round 0 of `simState` writes the result of
its match and enqueues nothing (there is no round 1). -/
theorem claim7_handleSimRound_witness :
    ∃ gs1, simulateRound noOps simState 0 = Except.ok gs1
      ∧ handleSimRound noOps simState (some 0)
          = Except.ok (enqueueSimRoundEvent gs1 (0 + 1), false)
      ∧ (∀ mid ∈ round0.matchIds, ∃ mt,
          alookup gs1.matchesTable mid = some mt
            ∧ mt.result = some (noOps.matchGoals mid))
      ∧ gs1.eventQueue = simState.eventQueue
      ∧ gs1.schedules = simState.schedules
      ∧ (∀ rd2, ([round0] : List ScheduleRound)[0 + 1]? = some rd2 →
          (enqueueSimRoundEvent gs1 (0 + 1)).eventQueue
            = insertEvent simState.eventQueue
                { date := rd2.date, type := GameEventType.simRound,
                  detail := some (0 + 1) })
      ∧ (([round0] : List ScheduleRound)[0 + 1]? = none →
          enqueueSimRoundEvent gs1 (0 + 1) = gs1) :=
  (claim7_handleSimRound noOps simState 0).2 [round0] round0
    (by decide) (by decide) (by decide)

/-! ## C8: season end -/

theorem insertEvent_perm (q : List GameEvent) (e : GameEvent) :
    (insertEvent q e).Perm (e :: q) := by
  rw [insertEvent_eq]
  refine List.perm_middle.trans ?_
  rw [List.takeWhile_append_dropWhile]

/-- C8 counterexample: with a present but empty current-season schedule the
seasonEnd handler raises a `TypeError` instead of archiving and asking for a
stop. -/
theorem claim8_counterexample :
    (alookup
        ({ emptyState with schedules := [("now", [])] } : GameState).schedules
        "now").isSome
    ∧ ∀ gs2 b,
        handleSeasonEnd { emptyState with schedules := [("now", [])] } farEvent
          ≠ Except.ok (gs2, b) := by
  constructor
  · decide
  · intro gs2 b hc
    have he : handleSeasonEnd { emptyState with schedules := [("now", [])] }
        farEvent = Except.error "TypeError: round is undefined" := rfl
    rw [he] at hc
    exact Except.noConfusion hc

/-- C8 (amended: the current-season schedule must be non-empty): the
seasonEnd handler archives the current schedule under
`{startYear}-{endYear}`, enqueues a seasonStart event for September 1 of
the current year and an updateContract event one day after the handled
event, and asks the simulation to stop. -/
theorem claim8_handleSeasonEnd (gs : GameState) (e : GameEvent)
    (rounds : List ScheduleRound) (r0 rl : ScheduleRound)
    (hnow : alookup gs.schedules "now" = some rounds)
    (h0 : rounds.head? = some r0) (hl : rounds.getLast? = some rl) :
    ∃ gs2, handleSeasonEnd gs e = Except.ok (gs2, true)
      ∧ gs2.schedules = setKey gs.schedules
          (toString (getFullYear r0.date) ++ "-"
            ++ toString (getFullYear rl.date)) rounds
      ∧ gs2.eventQueue.Perm
          ({ date := mkDate (getFullYear gs.date) 8 1,
             type := GameEventType.seasonStart, detail := none }
            :: { date := e.date + 24, type := GameEventType.updateContract,
                 detail := none }
            :: gs.eventQueue) := by
  set key : String := toString (getFullYear r0.date) ++ "-"
    ++ toString (getFullYear rl.date) with hkey
  set g1 : GameState := { gs with schedules := setKey gs.schedules key rounds }
    with hg1
  have hstore : storeEndedSeasonSchedule gs = Except.ok g1 := by
    unfold storeEndedSeasonSchedule
    rw [hnow]
    show (match rounds.head?, rounds.getLast? with
      | some r0, some rl =>
        Except.ok
          { gs with
            schedules := setKey gs.schedules
              (toString (getFullYear r0.date) ++ "-"
                ++ toString (getFullYear rl.date)) rounds }
      | _, _ => Except.error "TypeError: round is undefined")
      = Except.ok g1
    rw [h0, hl]
  refine ⟨enqueueUpdateContractEvent (enqueueSeasonStartEvent g1) e.date,
    ?_, ?_, ?_⟩
  · show (do
      let g2 ← storeEndedSeasonSchedule gs
      Except.ok (enqueueUpdateContractEvent (enqueueSeasonStartEvent g2) e.date,
        true)) = _
    rw [hstore]
    rfl
  · rfl
  · show (insertEvent
        (insertEvent gs.eventQueue
          { date := mkDate (getFullYear gs.date) 8 1,
            type := GameEventType.seasonStart, detail := none })
        { date := e.date + 24, type := GameEventType.updateContract,
          detail := none }).Perm _
    refine (insertEvent_perm _ _).trans ?_
    refine (List.Perm.cons _ (insertEvent_perm _ _)).trans ?_
    exact List.Perm.swap _ _ _

/-- Witness for C8 (amended) on a one-round current season. -/
theorem claim8_handleSeasonEnd_witness :
    ∃ gs2, handleSeasonEnd
          { emptyState with schedules := [("now", [round0])] } farEvent
        = Except.ok (gs2, true)
      ∧ gs2.schedules = setKey
          ({ emptyState with
             schedules := [("now", [round0])] } : GameState).schedules
          (toString (getFullYear round0.date) ++ "-"
            ++ toString (getFullYear round0.date)) [round0]
      ∧ gs2.eventQueue.Perm
          ({ date := mkDate
              (getFullYear
                ({ emptyState with
                   schedules := [("now", [round0])] } : GameState).date) 8 1,
             type := GameEventType.seasonStart, detail := none }
            :: { date := farEvent.date + 24,
                 type := GameEventType.updateContract, detail := none }
            :: ({ emptyState with
                  schedules := [("now", [round0])] } : GameState).eventQueue) :=
  claim8_handleSeasonEnd { emptyState with schedules := [("now", [round0])] }
    farEvent [round0] round0 round0 (by decide) (by decide) (by decide)

/-! ## C10: contract aging and expiry -/

theorem alookup_map_values {κ β γ : Type} [DecidableEq κ] (f : β → γ)
    (l : List (κ × β)) (k : κ) :
    alookup (l.map (fun kc => (kc.1, f kc.2))) k = (alookup l k).map f := by
  induction l with
  | nil => rfl
  | cons kv l ih =>
    show (if kv.1 = k then some (f kv.2) else _) = _
    by_cases h : kv.1 = k
    · rw [if_pos h]
      show _ = (if kv.1 = k then some kv.2 else alookup l k).map f
      rw [if_pos h]
      rfl
    · rw [if_neg h, ih]
      show _ = (if kv.1 = k then some kv.2 else alookup l k).map f
      rw [if_neg h]

theorem fold_unsign_contracts (cs : List Contract) :
    ∀ g : GameState,
      (cs.foldl (fun g2 c => if c.duration = 0 then unsignPlayer g2 c else g2)
        g).contracts
      = cs.foldl (fun l c => if c.duration = 0 then
          l.eraseP (fun kc => decide (kc.1 = c.playerId)) else l) g.contracts := by
  induction cs with
  | nil => intro g; rfl
  | cons c cs ih =>
    intro g
    rw [List.foldl_cons, List.foldl_cons]
    by_cases h : c.duration = 0
    · rw [if_pos h, if_pos h, ih]
      rfl
    · rw [if_neg h, if_neg h, ih]

theorem fold_erase_keeps_head (cs : List Contract) :
    ∀ (k : String) (c : Contract) (rest : List (String × Contract)),
      (∀ c2 ∈ cs, c2.playerId ≠ k) →
      cs.foldl (fun l c2 => if c2.duration = 0 then
          l.eraseP (fun kc => decide (kc.1 = c2.playerId)) else l) ((k, c) :: rest)
        = (k, c) :: cs.foldl (fun l c2 => if c2.duration = 0 then
            l.eraseP (fun kc => decide (kc.1 = c2.playerId)) else l) rest := by
  induction cs with
  | nil => intro k c rest _; rfl
  | cons c2 cs ih =>
    intro k c rest hk
    rw [List.foldl_cons, List.foldl_cons]
    have hne : c2.playerId ≠ k := hk c2 (List.mem_cons_self c2 cs)
    by_cases h : c2.duration = 0
    · rw [if_pos h, if_pos h]
      rw [List.eraseP_cons_of_neg (by simp; exact fun hx => hne hx.symm)]
      exact ih k c _ (fun c3 hc3 => hk c3 (List.mem_cons_of_mem c2 hc3))
    · rw [if_neg h, if_neg h]
      exact ih k c rest (fun c3 hc3 => hk c3 (List.mem_cons_of_mem c2 hc3))

theorem removeExpired_contracts_eq (gs : GameState)
    (hkeys : (gs.contracts.map Prod.fst).Nodup)
    (hwell : ∀ kc ∈ gs.contracts, kc.1 = kc.2.playerId) :
    (removeExpiredContracts gs).contracts
      = gs.contracts.filter (fun kc => decide (¬ kc.2.duration = 0)) := by
  unfold removeExpiredContracts
  rw [fold_unsign_contracts]
  -- the snapshot and the evolving list start from the same contract list
  generalize hsnap : gs.contracts = l at hkeys hwell ⊢
  clear hsnap gs
  induction l with
  | nil => rfl
  | cons kc rest ih =>
    obtain ⟨k0, c0⟩ := kc
    rw [List.map_cons] at hkeys
    rw [List.nodup_cons] at hkeys
    obtain ⟨hk1, hk2⟩ := hkeys
    have hwellh : k0 = c0.playerId := hwell (k0, c0) (List.mem_cons_self _ rest)
    have hwellr : ∀ kc2 ∈ rest, kc2.1 = kc2.2.playerId :=
      fun kc2 h2 => hwell kc2 (List.mem_cons_of_mem _ h2)
    have hrestne : ∀ c2 ∈ rest.map Prod.snd, c2.playerId ≠ k0 := by
      intro c2 hc2
      obtain ⟨kc2, hkc2, he⟩ := List.mem_map.mp hc2
      intro hcon
      apply hk1
      have hkk : kc2.1 = k0 := by
        rw [hwellr kc2 hkc2, he, hcon]
      have hmm2 : kc2.1 ∈ List.map Prod.fst rest :=
        List.mem_map_of_mem Prod.fst hkc2
      rw [hkk] at hmm2
      exact hmm2
    rw [List.map_cons, List.foldl_cons]
    by_cases h : c0.duration = 0
    · rw [if_pos h]
      rw [List.eraseP_cons_of_pos (by simp; exact hwellh)]
      rw [List.filter_cons, if_neg (by simp [h])]
      exact ih hk2 hwellr
    · rw [if_neg h]
      rw [fold_erase_keeps_head (rest.map Prod.snd) k0 c0 rest hrestne]
      rw [List.filter_cons, if_pos (by simp [h])]
      rw [ih hk2 hwellr]

/-- C10: `updateContracts` decrements every contract's duration by one, and
`removeExpiredContracts` (run by `handleUpdateContracts` after the renewal
step) unsigns exactly the players whose contract duration is 0 at that
point - strictly positive and strictly negative durations are left in
place. -/
theorem claim10_handleUpdateContracts (ops : ExternalOps) (gs : GameState)
    (hkeys : ((renewExipiringContracts ops
        (updateContracts gs)).contracts.map Prod.fst).Nodup)
    (hwell : ∀ kc ∈ (renewExipiringContracts ops (updateContracts gs)).contracts,
        kc.1 = kc.2.playerId) :
    (∀ k c, alookup gs.contracts k = some c →
        alookup (updateContracts gs).contracts k
          = some { c with duration := c.duration - 1 })
    ∧ (handleUpdateContracts ops gs).2 = false
    ∧ (handleUpdateContracts ops gs).1.contracts
        = (renewExipiringContracts ops (updateContracts gs)).contracts.filter
            (fun kc => decide (¬ kc.2.duration = 0)) := by
  refine ⟨?_, rfl, ?_⟩
  · intro k c hc
    have h2 := alookup_map_values
      (fun c2 : Contract => ({ c2 with duration := c2.duration - 1 } : Contract))
      gs.contracts k
    have h3 : alookup (updateContracts gs).contracts k
        = (alookup gs.contracts k).map
            (fun c2 : Contract =>
              ({ c2 with duration := c2.duration - 1 } : Contract)) := h2
    rw [h3, hc]
    rfl
  · show (removeExpiredContracts
      (renewExipiringContracts ops (updateContracts gs))).contracts = _
    exact removeExpired_contracts_eq _ hkeys hwell

/-- Witness for C10 on a two-contract state (durations 1 and 0 after the
decrement) with identity renewal. -/
theorem claim10_handleUpdateContracts_witness :
    (∀ k c, alookup
          ({ emptyState with contracts :=
              [("p1", { playerId := "p1", teamName := "t", duration := 2 }),
               ("p2", { playerId := "p2", teamName := "t", duration := 1 })] }
            : GameState).contracts k = some c →
        alookup (updateContracts
          { emptyState with contracts :=
              [("p1", { playerId := "p1", teamName := "t", duration := 2 }),
               ("p2", { playerId := "p2", teamName := "t", duration := 1 })] }).contracts k
          = some { c with duration := c.duration - 1 })
    ∧ (handleUpdateContracts noOps
        { emptyState with contracts :=
            [("p1", { playerId := "p1", teamName := "t", duration := 2 }),
             ("p2", { playerId := "p2", teamName := "t", duration := 1 })] }).2
        = false
    ∧ (handleUpdateContracts noOps
        { emptyState with contracts :=
            [("p1", { playerId := "p1", teamName := "t", duration := 2 }),
             ("p2", { playerId := "p2", teamName := "t", duration := 1 })] }).1.contracts
        = (renewExipiringContracts noOps (updateContracts
            { emptyState with contracts :=
                [("p1", { playerId := "p1", teamName := "t", duration := 2 }),
                 ("p2", { playerId := "p2", teamName := "t", duration := 1 })] })).contracts.filter
            (fun kc => decide (¬ kc.2.duration = 0)) :=
  claim10_handleUpdateContracts noOps
    { emptyState with contracts :=
        [("p1", { playerId := "p1", teamName := "t", duration := 2 }),
         ("p2", { playerId := "p2", teamName := "t", duration := 1 })] }
    (by decide) (by decide)
